import Mathlib

/-!
# Verification of the VettaVista job-filtering pipeline

Shallow embedding of the core data model and operations of the VettaVista
backend (job cache service, detailed/preliminary filter services, skill
matcher, title matcher, application finalization), translated from the
Python sources under `Backend/vettavista_backend`, together with proofs
of the specified behavioural properties.

Conventions used throughout:
* Python `dict`s are modelled as association lists with insert-or-replace
  semantics (`ainsert` keeps the position of an existing key, like a
  CPython dict update).
* Python `float` values (scores, timestamps) are modelled as `Rat`.
* Fallible calls are modelled with `Except String` / `Option`; external
  collaborators (embedding model, fuzzy matcher, storages, LLM calls) are
  parameters of the relevant environment structures, so theorems quantify
  over every collaborator behaviour.
-/

set_option autoImplicit false

namespace VettaVista

/-! ## Association-list primitives (Python dict model) -/

/-- Lookup in an association list: first binding wins (keys are unique in
all states built by `ainsert`/`aerase`, matching dict semantics). -/
def alookup {K V : Type} [DecidableEq K] : List (K × V) → K → Option V
  | [], _ => none
  | (k, v) :: rest, key => if k = key then some v else alookup rest key

/-- Insert-or-replace, keeping the position of an existing key (CPython
dict update keeps insertion order; a new key is appended). -/
def ainsert {K V : Type} [DecidableEq K] : List (K × V) → K → V → List (K × V)
  | [], key, val => [(key, val)]
  | (k, v) :: rest, key, val =>
    if k = key then (k, val) :: rest else (k, v) :: ainsert rest key val

/-- Deletion of a key (`del d[k]`).  All bindings of the key are dropped:
a Python dict never holds a duplicate key, so on every state reachable
through `ainsert` this coincides with removing the single binding, while
keeping the model well-behaved on arbitrary association lists. -/
def aerase {K V : Type} [DecidableEq K] (l : List (K × V)) (key : K) : List (K × V) :=
  l.filter (fun p => p.1 ≠ key)

theorem alookup_ainsert_self {K V : Type} [DecidableEq K]
    (l : List (K × V)) (k : K) (v : V) : alookup (ainsert l k v) k = some v := by
  induction l with
  | nil => simp [ainsert, alookup]
  | cons hd tl ih =>
    obtain ⟨k', v'⟩ := hd
    by_cases h : k' = k <;> simp [ainsert, alookup, h, ih]

theorem alookup_ainsert_ne {K V : Type} [DecidableEq K]
    (l : List (K × V)) (k k' : K) (v : V) (h : k ≠ k') :
    alookup (ainsert l k v) k' = alookup l k' := by
  induction l with
  | nil => simp [ainsert, alookup, h]
  | cons hd tl ih =>
    obtain ⟨k₀, v₀⟩ := hd
    by_cases h₀ : k₀ = k
    · subst h₀; simp [ainsert, alookup, h]
    · simp [ainsert, alookup, h₀, ih]

theorem alookup_aerase_self {K V : Type} [DecidableEq K]
    (l : List (K × V)) (k : K) : alookup (aerase l k) k = none := by
  induction l with
  | nil => simp [aerase, alookup]
  | cons hd tl ih =>
    obtain ⟨k₀, v₀⟩ := hd
    by_cases h : k₀ = k
    · subst h
      simpa [aerase, alookup] using ih
    · simpa [aerase, alookup, h] using ih

/-! ## Core data model (`modules/models/services.py`, `config/global_constants.py`) -/

/-- `JobStatus` (a Python `str` enum: `ERROR = "error"` etc., so comparing a
member with the corresponding string literal succeeds). -/
inductive JobStatus where
  | unknown
  | likelyMatch
  | possibleMatch
  | notLikely
  | confirmedMatch
  | confirmedNoMatch
  | error
deriving DecidableEq, Repr

/-- `FilterType` enum. -/
inductive FilterType where
  | preliminary
  | detailed
deriving DecidableEq, Repr

/-- `VisaSupport` enum. -/
inductive VisaSupport where
  | supported
  | unsupported
  | unknown
deriving DecidableEq, Repr

/-- `GlassdoorRating` dataclass. -/
structure GlassdoorRating where
  rating : Rat
  reviewCount : Int
  isValid : Bool
deriving DecidableEq, Repr

/-- `JobInfo` dataclass (preliminary screening record). -/
structure JobInfo where
  jobId : String
  title : String
  company : String
  location : String
  glassdoorRating : GlassdoorRating
deriving DecidableEq, Repr

/-- `JobDetailedInfo` dataclass (extends `JobInfo`). -/
structure JobDetailedInfo where
  jobId : String
  title : String
  company : String
  location : String
  glassdoorRating : GlassdoorRating
  description : String
  url : Option String := none
  requirements : Option String := none
  aboutCompany : String := ""
  companySize : String := ""
deriving DecidableEq, Repr

/-- `JobStatusResponse` dataclass.  The Python field `match` is called
`matched` here (`match` is a Lean keyword); `title_score` is `titleScore`.
`timestamp` is set by the caller (the source defaults it to
`datetime.now().timestamp()`). -/
structure JobStatusResponse where
  status : JobStatus
  reasons : List String := []
  titleScore : Option Rat := none
  matched : Option Bool := none
  filterType : FilterType := FilterType.preliminary
  timestamp : Rat
deriving DecidableEq, Repr

/-- The `languages` sub-map of a skills dict:
`job_skills['languages'] = dict with required/preferred lists`. -/
structure LanguageReq where
  required : List String := []
  preferred : List String := []
deriving DecidableEq, Repr

/-- A job's extracted skills dict: the optional `languages` sub-map plus
the category lists (`job_skills[category]`), modelled as an association
list keyed by category name. -/
structure JobSkills where
  languages : Option LanguageReq := none
  cats : List (String × List String) := []
deriving DecidableEq, Repr

/-- The experience dict extracted by the LLM: `years`/`months` are `none`
when the key is missing or holds a non-numeric value (any access then
raises inside `extract_years_of_experience`'s try-block and is caught). -/
structure ExpDict where
  years : Option Rat := none
  months : Option Rat := none
  isMinimum : Bool := false
  context : String := ""
deriving DecidableEq, Repr

/-- The red-flags dict: the source reads it with
`red_flags_dict.get("score", 0)` and `.get("reasons", [])`, so both keys
are optional. -/
structure RedFlags where
  score : Option Rat := none
  reasons : Option (List String) := none
deriving DecidableEq, Repr

/-- `JobAnalysisInfo` dataclass. -/
structure JobAnalysisInfo where
  skillsDict : JobSkills
  experienceDict : ExpDict
  redFlagsDict : RedFlags
  visaSupport : VisaSupport
  postLanguage : String
  timestamp : Rat
deriving DecidableEq, Repr

/-- `HIGH_THRESHOLD = 0.8` (`config/global_constants.py`). -/
def HIGH_THRESHOLD : Rat := 8/10

/-- `LOW_THRESHOLD = 0.45`. -/
def LOW_THRESHOLD : Rat := 45/100

/-- `TITLE_MATCH_SETTINGS['cache_size'] = 1000`. -/
def TITLE_MATCH_cacheSize : Nat := 1000

/-! ## `JobCacheService` (`modules/business/cache/job_cache_service.py`) -/

/-- The five namespaces of `JobCacheService`.  Resume / cover-letter
payloads are opaque strings (their structure is irrelevant here). -/
structure CacheState where
  jobInfoCache : List (String × JobDetailedInfo) := []
  jobAnalysisCache : List (String × JobAnalysisInfo) := []
  resumeCache : List (String × String) := []
  coverLetterCache : List (String × String) := []
  filterCache : List (String × JobStatusResponse) := []
deriving DecidableEq, Repr

/-- `get_job_info`. -/
def getJobInfo (st : CacheState) (jobId : String) : Option JobDetailedInfo :=
  alookup st.jobInfoCache jobId

/-- `set_job_info`. -/
def setJobInfo (st : CacheState) (jobId : String) (info : JobDetailedInfo) : CacheState :=
  { st with jobInfoCache := ainsert st.jobInfoCache jobId info }

/-- `get_job_analysis`. -/
def getJobAnalysis (st : CacheState) (jobId : String) : Option JobAnalysisInfo :=
  alookup st.jobAnalysisCache jobId

/-- `set_job_analysis`. -/
def setJobAnalysis (st : CacheState) (jobId : String) (a : JobAnalysisInfo) : CacheState :=
  { st with jobAnalysisCache := ainsert st.jobAnalysisCache jobId a }

/-- `get_filter_result`: lazy TTL eviction on read.  A cached entry older
than `604800` seconds (strictly) is deleted and the read misses;
otherwise the entry is returned unchanged.  `now` is
`datetime.now().timestamp()`. -/
def getFilterResult (now : Rat) (st : CacheState) (jobId : String) :
    Option JobStatusResponse × CacheState :=
  match alookup st.filterCache jobId with
  | none => (none, st)
  | some cached =>
    if now - cached.timestamp > 604800 then
      (none, { st with filterCache := aerase st.filterCache jobId })
    else
      (some cached, st)

/-- `set_filter_result`: `if result.status != "error"` — `JobStatus` is a
`str` enum whose `ERROR` member equals the string `"error"`, so a result
whose status is `ERROR` is rejected and the cache is untouched. -/
def setFilterResult (st : CacheState) (jobId : String) (result : JobStatusResponse) : CacheState :=
  if result.status ≠ JobStatus.error then
    { st with filterCache := ainsert st.filterCache jobId result }
  else
    st

/-- `clear_cache`. -/
def clearCache (_st : CacheState) : CacheState := {}

/-! ## Detailed filter service
(`modules/business/filter/detailed_filter_service.py`) -/

/-- ASCII upper-casing (`str.upper()`), written over the character list
so it evaluates by kernel reduction. -/
def pyUpper (s : String) : String := ⟨s.data.map Char.toUpper⟩

/-- ASCII lower-casing (`str.lower()`). -/
def pyLower (s : String) : String := ⟨s.data.map Char.toLower⟩

/-- Does `pat` start the list `s`? -/
def startsWithL : List Char → List Char → Bool
  | _, [] => true
  | [], _ :: _ => false
  | a :: s, b :: p => a = b && startsWithL s p

/-- Does `pat` occur inside `s`? -/
def containsSubL : List Char → List Char → Bool
  | s, pat =>
    if startsWithL s pat then true
    else
      match s with
      | [] => false
      | _ :: rest => containsSubL rest pat

/-- Substring test (`pat in s` on Python strings). -/
def containsStr (s pat : String) : Bool := containsSubL s.data pat.data

/-- `sep.join(parts)` (same as `String.intercalate`, written with a
structural fold). -/
def joinSep (sep : String) : List String → String
  | [] => ""
  | h :: t => t.foldl (fun acc x => acc ++ sep ++ x) h

/-- One match of the compiled experience regex `re_experience` over the
description: `value` is `float(match.group(1))` when it parses (`none`
models the caught `ValueError`/`IndexError`, which skips the match), and
`text` is `match.group()`, the full matched text. -/
structure ExpMatch where
  value : Option Rat
  text : String
deriving DecidableEq, Repr

/-- External collaborators and configuration consumed by
`DetailedFilterService`.  Fallible collaborators return
`Except String` (the `String` is the exception text `str(e)`). -/
structure DetailedEnv where
  /-- `blacklist_storage.is_blacklisted` -/
  isBlacklisted : String → Bool
  /-- `job_history_storage.is_rejected` -/
  isRejected : String → Bool
  /-- `HybridLanguageDetector.detect_language` (language, confidence) -/
  detectLanguage : String → Option String × Rat
  /-- `resume.skills['languages']` -/
  resumeLanguages : List String
  /-- `resume.did_masters` -/
  didMasters : Bool
  /-- `title_matcher.match_title` (step 3; the underlying embedding-model
  call can raise, which the source does not catch at this call site) -/
  matchTitle : String → Except String Rat
  /-- `_get_relevant_experience_duration` (embedding-model based; called
  outside `skip_for_experience_length`'s try-block) -/
  relevantExperience : String → Except String Rat
  /-- `re.finditer(self.re_experience, job_description, re.IGNORECASE)` -/
  findExpMatches : String → List ExpMatch
  /-- `self._claude.batch_extract_job_info(description, post_lang)` -/
  batchExtract : String → String →
    Except String (JobSkills × ExpDict × RedFlags × VisaSupport)
  /-- `self.skill_matcher.evaluate_skills_match(skills_dict)` (its
  failures originate in external model calls) -/
  evaluateSkills : JobSkills → Except String (Bool × List String)

/-- `detect_post_language`: `if not post_lang` treats both `None` and the
empty string as a failed detection and defaults to `'ENGLISH'`. -/
def detectPostLanguage (env : DetailedEnv) (description : String) : String :=
  match (env.detectLanguage description).1 with
  | none => "ENGLISH"
  | some l => if l = "" then "ENGLISH" else l

/-- `should_skip_job` (detailed service).  `parse_employee_count` is
computed in the source but its result is only used by a commented-out
check, so it is omitted.  Returns (should_skip, reason, post_lang). -/
def shouldSkipJob (env : DetailedEnv) (job : JobDetailedInfo) :
    Bool × String × Option String :=
  if job.description = "" then
    (true, "Error getting job description", none)
  else if env.isBlacklisted job.company then
    (true, "Company " ++ job.company ++ " is blacklisted", none)
  else if env.isRejected job.jobId then
    (true, "Job " ++ job.jobId ++ " was previously rejected", none)
  else
    let postLang := detectPostLanguage env job.description
    -- missing = {post_lang.upper()} - {lang.upper() for lang in resume languages}
    if (env.resumeLanguages.map pyUpper).contains (pyUpper postLang) then
      (false, "", some postLang)
    else
      (true, "Missing job post language", some postLang)

/-- The value of the local `claude_exp` at the end of the first
try/except of `extract_years_of_experience`: it is initialised to `0`
and only overwritten when `exp_dict["years"] >= 0` succeeds; every
exception (missing/non-numeric `years` or `months`) is caught and leaves
the initial `0` in place.  Note it is a number in every case — never
`None`. -/
def claudeExpOf (e : ExpDict) : Rat :=
  match e.years with
  | none => 0          -- KeyError / TypeError caught, claude_exp keeps 0
  | some y =>
    if y ≥ 0 then
      match e.months with
      | none => 0      -- exception while evaluating the months expression
      | some m => y + (if m ≥ 0 then m / 12 else 0)
    else 0             -- guard false, assignment skipped

/-- The regex side of `extract_years_of_experience`: parsed values
(months divided by 12) with the minimum taken, `none` when no match
parses. -/
def regexExpOf (ms : List ExpMatch) : Option Rat :=
  let experiences := ms.filterMap (fun m =>
    m.value.map (fun v => if containsStr (pyLower m.text) "month" then v / 12 else v))
  match experiences with
  | [] => none
  | h :: t => some (t.foldl min h)

/-- `extract_years_of_experience`: the decision logic exactly as written.
Because `claude_exp` is never `None` (see `claudeExpOf`), the first two
branches are the only reachable ones; the regex-fallback branch and the
final `return 0` are dead code. -/
def extractYearsOfExperience (env : DetailedEnv) (description : String)
    (e : ExpDict) : Rat :=
  let regexExp : Option Rat := regexExpOf (env.findExpMatches description)
  let claudeExp : Option Rat := some (claudeExpOf e)
  match claudeExp, regexExp with
  | some c, some _ => c        -- disagreement > 1 year is only logged
  | some c, none => c
  | none, some r => r          -- unreachable: claudeExp is always `some`
  | none, none => 0            -- unreachable

/-- `skip_for_experience_length` (margin defaults to 1 in the source;
`detailed_filter` calls it without a margin argument).
`_get_relevant_experience_duration` is invoked before the internal
try-block, so its exceptions propagate; `extract_years_of_experience`
never raises, so the internal except-branch is dead. -/
def skipForExperienceLength (env : DetailedEnv) (job : JobDetailedInfo)
    (e : ExpDict) (margin : Rat) : Except String (Bool × String) := do
  let current ← env.relevantExperience job.title
  let required := extractYearsOfExperience env job.description e
  if required > 0 then
    let mastersBonus : Rat :=
      if env.didMasters ∧ containsStr (pyLower job.description) "master" then 2 else 0
    if required > current + mastersBonus + margin then
      pure (true, "Required experience (" ++ toString required ++
        " years) exceeds relevant experience (" ++ toString current ++
        " + " ++ toString margin ++ " years)")
    else
      pure (false, "Relevant experience (" ++ toString current ++
        " years) exceeds required experience (" ++ toString required ++ " years)")
  else
    pure (false, "Relevant experience (" ++ toString current ++
      " years) exceeds required experience (" ++ toString required ++ " years)")

/-- `_check_visa_and_red_flags`: `(None, "")` means "continue with normal
processing". -/
def checkVisaAndRedFlags (visa : VisaSupport) (red : RedFlags) :
    Option JobStatus × String :=
  if visa = VisaSupport.unsupported then
    (some JobStatus.confirmedNoMatch, "Job does not provide visa support")
  else
    let score := red.score.getD 0
    let reasons := red.reasons.getD []
    if score ≥ 75 then
      (some JobStatus.confirmedNoMatch,
        "High risk: " ++ joinSep "; " (reasons.take 3))
    else if score ≥ 65 then
      (some JobStatus.notLikely,
        "Medium-high risk: " ++ joinSep "; " (reasons.take 2))
    else
      (none, "")

/-- The `JobStatusResponse` built by `detailed_filter`'s exception
handler. -/
def detailedErrorResponse (e : String) (titleScore : Rat) (now : Rat) :
    JobStatusResponse :=
  { status := JobStatus.error
    matched := some false
    reasons := ["Error in analysis: " ++ e]
    titleScore := some titleScore
    filterType := FilterType.detailed
    timestamp := now }

/-- The body of `detailed_filter`'s try-block (steps 4–7: analysis
retrieval/extraction, visa/red-flag gate, experience gate, skill match
and final classification).  The state is threaded through the error case
as well: side effects performed before an exception persist, exactly as
in Python. -/
def detailedTryBody (env : DetailedEnv) (now : Rat) (job : JobDetailedInfo)
    (postLang : String) (titleScore : Rat) (st : CacheState) :
    Except String JobStatusResponse × CacheState :=
  -- step 4: reuse the cached analysis, otherwise extract and cache it
  let analysisStep :
      Except String (JobSkills × ExpDict × RedFlags × VisaSupport) × CacheState :=
    match getJobAnalysis st job.jobId with
    | some a => (Except.ok (a.skillsDict, a.experienceDict, a.redFlagsDict, a.visaSupport), st)
    | none =>
      match env.batchExtract job.description postLang with
      | Except.error e => (Except.error e, st)
      | Except.ok (s, e, r, v) =>
        (Except.ok (s, e, r, v),
          setJobAnalysis st job.jobId
            { skillsDict := s, experienceDict := e, redFlagsDict := r
              visaSupport := v, postLanguage := postLang, timestamp := now })
  match analysisStep with
  | (Except.error e, st) => (Except.error e, st)
  | (Except.ok (skills, expd, red, visa), st) =>
    -- step 5: visa / red flags gate
    match checkVisaAndRedFlags visa red with
    | (some status, reason) =>
      let r : JobStatusResponse :=
        { status := status, matched := some false, reasons := [reason]
          titleScore := some titleScore, filterType := FilterType.detailed
          timestamp := now }
      (Except.ok r, setFilterResult st job.jobId r)
    | (none, _) =>
      -- step 6: experience gate
      match skipForExperienceLength env job expd 1 with
      | Except.error e => (Except.error e, st)
      | Except.ok (true, reason) =>
        let r : JobStatusResponse :=
          { status := JobStatus.confirmedNoMatch, matched := some false
            reasons := [reason], titleScore := some titleScore
            filterType := FilterType.detailed, timestamp := now }
        (Except.ok r, setFilterResult st job.jobId r)
      | Except.ok (false, _) =>
        -- step 7: skill match and final classification
        match env.evaluateSkills skills with
        | Except.error e => (Except.error e, st)
        | Except.ok (isMatch, reasons) =>
          let status :=
            if isMatch ∧ titleScore > HIGH_THRESHOLD then JobStatus.confirmedMatch
            else if isMatch ∧ titleScore > LOW_THRESHOLD then JobStatus.possibleMatch
            else JobStatus.confirmedNoMatch
          let r : JobStatusResponse :=
            { status := status, matched := some isMatch, reasons := reasons
              titleScore := some titleScore, filterType := FilterType.detailed
              timestamp := now }
          (Except.ok r, setFilterResult st job.jobId r)

/-- `detailed_filter` after the cache check: preliminary skip re-check,
title scoring (step 3, outside the try-block: its exceptions propagate
to the caller), then the try-body whose exceptions degrade to an
ERROR-status response that is returned without being cached. -/
def detailedRest (env : DetailedEnv) (now : Rat) (job : JobDetailedInfo)
    (st : CacheState) : Except String (JobStatusResponse × CacheState) :=
  let skipRes := shouldSkipJob env job
  if skipRes.1 ∨ skipRes.2.2 = none then
    let r : JobStatusResponse :=
      { status := JobStatus.confirmedNoMatch, matched := some false
        reasons := [skipRes.2.1], titleScore := none
        filterType := FilterType.detailed, timestamp := now }
    Except.ok (r, setFilterResult st job.jobId r)
  else
    match env.matchTitle job.title with
    | Except.error e => Except.error e   -- step 3 raises past the pipeline
    | Except.ok titleScore =>
      match detailedTryBody env now job (skipRes.2.2.getD "") titleScore st with
      | (Except.ok r, st') => Except.ok (r, st')
      | (Except.error e, st') =>
        Except.ok (detailedErrorResponse e titleScore now, st')

/-- `detailed_filter`: store the job info, honour a cached result only
when its `filter_type` is DETAILED, otherwise run the rest of the
pipeline. -/
def detailedFilter (env : DetailedEnv) (now : Rat) (job : JobDetailedInfo)
    (st : CacheState) : Except String (JobStatusResponse × CacheState) :=
  let st₁ := setJobInfo st job.jobId job
  match getFilterResult now st₁ job.jobId with
  | (some r, st₂) =>
    if r.filterType = FilterType.detailed then Except.ok (r, st₂)
    else detailedRest env now job st₂
  | (none, st₂) => detailedRest env now job st₂

/-! ## Preliminary filter service
(`modules/business/filter/preliminary_filter_service.py`) -/

/-- External collaborators and configuration consumed by
`PreliminaryFilterService`. -/
structure PrelimEnv where
  /-- `self.bad_words_pattern.search(title)`: the first matched bad word,
  if any. -/
  badWordMatch : String → Option String
  /-- `blacklist_storage.is_blacklisted` -/
  isBlacklisted : String → Bool
  /-- `job_history_storage.is_rejected` -/
  isRejected : String → Bool
  /-- `self.lang_detect_remove_pattern.sub('', title)` -/
  removeLangWords : String → String
  /-- `HybridLanguageDetector.detect_language` -/
  detectLanguage : String → Option String × Rat
  /-- `resume.skills['languages']` -/
  resumeLanguages : List String
  /-- `self.title_matcher.match_title` (failures of the preliminary title
  scorer are not relevant to the claims; modelled as total) -/
  matchTitle : String → Rat

/-- `should_skip_preliminary`.  The language gate only acts when a
language is detected (truthy) with confidence above `0.25`;
`detected_lang not in resume.skills['languages']` compares the raw
strings (no upper-casing here, unlike the detailed service). -/
def shouldSkipPreliminary (env : PrelimEnv) (job : JobInfo) : Bool × String :=
  let title := pyLower job.title   -- `job.title.lower() if job.title else ""`
  match env.badWordMatch title with
  | some w => (true, "Title contains excluded word: " ++ w)
  | none =>
    if env.isBlacklisted job.company then
      (true, "Company " ++ job.company ++ " is blacklisted")
    else if env.isRejected job.jobId then
      (true, "Job " ++ job.jobId ++ " was previously rejected")
    else
      let langSkip : Option (Bool × String) :=
        if title ≠ "" then
          match env.detectLanguage (env.removeLangWords title) with
          | (some l, confidence) =>
            if l ≠ "" ∧ confidence > 1/4 ∧ ¬ env.resumeLanguages.contains l then
              some (true, "Job posting language (" ++ l ++
                ") not in user\x27s languages")
            else none
          | (none, _) => none
        else none
      match langSkip with
      | some r => r
      | none =>
        if job.glassdoorRating.isValid then
          if job.glassdoorRating.rating < 7/2 then
            (true, "Company has poor rating (" ++
              toString job.glassdoorRating.rating ++ "★)")
          else if job.glassdoorRating.rating < 39/10 ∧
              job.glassdoorRating.reviewCount ≥ 15 then
            (true, "Company has low rating (" ++
              toString job.glassdoorRating.rating ++ "★) with " ++
              toString job.glassdoorRating.reviewCount ++ " reviews")
          else (false, "")
        else (false, "")

/-- `get_preliminary_status` followed by the `filter_type` assignment on
line 163 (the dataclass default is already PRELIMINARY). -/
def getPreliminaryStatus (env : PrelimEnv) (now : Rat) (job : JobInfo) :
    JobStatusResponse :=
  let titleScore := env.matchTitle job.title
  if titleScore > HIGH_THRESHOLD then
    { status := JobStatus.likelyMatch, reasons := ["Title matches well"]
      titleScore := some titleScore, filterType := FilterType.preliminary
      timestamp := now }
  else if titleScore > LOW_THRESHOLD then
    { status := JobStatus.possibleMatch, reasons := ["Title somewhat matches"]
      titleScore := some titleScore, filterType := FilterType.preliminary
      timestamp := now }
  else
    { status := JobStatus.notLikely, reasons := ["Title does not match well"]
      titleScore := some titleScore, filterType := FilterType.preliminary
      timestamp := now }

/-- The per-job body of `preliminary_filter` after its cache check: skip
checks (whose results are appended without being cached) or title
scoring (cached).  The `hasattr` validation never fires on a well-typed
`JobInfo` dataclass and is omitted. -/
def preliminaryRest (env : PrelimEnv) (now : Rat) (st : CacheState)
    (job : JobInfo) : JobStatusResponse × CacheState :=
  let skipRes := shouldSkipPreliminary env job
  if skipRes.1 then
    let status :=
      if containsStr skipRes.2 "Job posting language" ∨
         containsStr skipRes.2 "poor rating" ∨
         containsStr skipRes.2 "excluded word" then
        JobStatus.confirmedNoMatch
      else JobStatus.notLikely
    let r : JobStatusResponse :=
      { status := status, reasons := [skipRes.2]
        filterType := FilterType.preliminary, timestamp := now }
    (r, st)
  else
    let r := getPreliminaryStatus env now job
    (r, setFilterResult st job.jobId r)

/-- The per-job step of `preliminary_filter`: honour a cached result only
when its `filter_type` is PRELIMINARY. -/
def preliminaryProcessJob (env : PrelimEnv) (now : Rat) (st : CacheState)
    (job : JobInfo) : JobStatusResponse × CacheState :=
  match getFilterResult now st job.jobId with
  | (some c, st') =>
    if c.filterType = FilterType.preliminary then (c, st')
    else preliminaryRest env now st' job
  | (none, st') => preliminaryRest env now st' job

/-- `preliminary_filter`: order-preserving fold over the input list. -/
def preliminaryFilter (env : PrelimEnv) (now : Rat) (st : CacheState) :
    List JobInfo → List JobStatusResponse × CacheState
  | [] => ([], st)
  | job :: rest =>
    let (r, st') := preliminaryProcessJob env now st job
    let (rs, st'') := preliminaryFilter env now st' rest
    (r :: rs, st'')

/-! ## Application service
(`modules/business/application/application_service.py`, `finalize_application`) -/

/-- Decidable equality for `Except` results (needed so concrete runs can
be compared by `decide`). -/
instance exceptDecEq {ε α : Type} [DecidableEq ε] [DecidableEq α] :
    DecidableEq (Except ε α) := fun a b =>
  match a, b with
  | Except.ok x, Except.ok y =>
    if h : x = y then Decidable.isTrue (by rw [h])
    else Decidable.isFalse (by intro he; cases he; exact h rfl)
  | Except.error x, Except.error y =>
    if h : x = y then Decidable.isTrue (by rw [h])
    else Decidable.isFalse (by intro he; cases he; exact h rfl)
  | Except.ok _, Except.error _ => Decidable.isFalse (by intro he; cases he)
  | Except.error _, Except.ok _ => Decidable.isFalse (by intro he; cases he)

/-- Python exception classes relevant to `finalize_application`. -/
inductive PyError where
  | valueError : String → PyError
  | attributeError : String → PyError
  | other : String → PyError
deriving DecidableEq, Repr

/-- `CustomizedContent` dataclass. -/
structure CustomizedContent where
  original : String
  customized : String
deriving DecidableEq, Repr

/-- `ProcessingStatus` enum. -/
inductive ProcessingStatus where
  | pending | processing | completed | failed
deriving DecidableEq, Repr

/-- `ApplicationPhase` enum. -/
inductive ApplicationPhase where
  | resume | coverLetter | finalized
deriving DecidableEq, Repr

/-- `ApplyType` enum. -/
inductive ApplyType where
  | easy | external
deriving DecidableEq, Repr

/-- `ActiveTask` dataclass (the fields consumed by
`finalize_application`; `session_id` lives as the key of the
`active_tasks` map). -/
structure ActiveTask where
  jobId : String
  applyType : ApplyType
  status : ProcessingStatus := ProcessingStatus.pending
  currentPhase : ApplicationPhase := ApplicationPhase.resume
  error : Option String := none
  resumeData : Option CustomizedContent := none
  recommendedSkills : Option (List String) := none
  coverLetterData : Option CustomizedContent := none
  previewData : Option String := none
deriving DecidableEq, Repr

/-- Shared mutable state visible to `finalize_application`: the editor
manager's `active_tasks` map and the job cache. -/
structure AppState where
  activeTasks : List (String × ActiveTask) := []
  cache : CacheState := {}
deriving DecidableEq, Repr

/-- External collaborators of `finalize_application`.  Each fallible call
returns `Except String` (exception text). -/
structure FinalizeEnv where
  /-- `resume_generator.generate_pdf_from_latex(content, name)` -/
  resumePdf : String → String → Except String String
  /-- `cover_letter_generator.generate_pdf_from_text(content, name)` -/
  coverPdf : String → String → Except String String
  /-- `os.makedirs` + the two `shutil.copy2` calls -/
  copyFiles : String → String → Except String Unit
  /-- `job_history.add_or_update_job(entry)` -/
  addHistory : Except String Unit
  /-- `job_history.search_jobs(days=30)` + `broadcaster.broadcast_update` -/
  searchAndBroadcast : Except String Unit
  /-- `datetime.now().timestamp()` during the run -/
  now : Rat

/-- The observable outcome of one `finalize_application` call: the
returned/raised value, the post-state, whether a job-history entry was
written, and the `match_status` recorded on that entry (if any).  The
best-effort directory-open step is swallowed in the source and has no
observable effect. -/
structure FinalizeOutcome where
  result : Except PyError Unit
  state : AppState
  historyWritten : Bool
  historyStatus : Option JobStatus := none
deriving DecidableEq, Repr

/-- The try-block of `finalize_application` (PDF generation, file copy,
history entry, status/phase updates, broadcast).  Any exception marks the
task FAILED with the exception text and re-raises. -/
def finalizeTryBody (env : FinalizeEnv) (st : AppState) (sessionId : String)
    (task : ActiveTask) (rd cl : CustomizedContent) : FinalizeOutcome :=
  let failWith (stf : AppState) (written : Bool) (hs : Option JobStatus)
      (e : String) : FinalizeOutcome :=
    let tf := { task with status := ProcessingStatus.failed, error := some e }
    { result := Except.error (PyError.other e)
      state := { stf with activeTasks := ainsert stf.activeTasks sessionId tf }
      historyWritten := written, historyStatus := hs }
  match env.resumePdf rd.customized ("resume_" ++ sessionId) with
  | Except.error e => failWith st false none e
  | Except.ok resumeTemp =>
    match env.coverPdf cl.customized ("cover_letter_" ++ sessionId) with
    | Except.error e => failWith st false none e
    | Except.ok coverTemp =>
      match env.copyFiles resumeTemp coverTemp with
      | Except.error e => failWith st false none e
      | Except.ok _ =>
        -- filter_result read (with its lazy TTL eviction side effect)
        let frRead := getFilterResult env.now st.cache task.jobId
        let st₁ : AppState := { st with cache := frRead.2 }
        let matchStatus :=
          match frRead.1 with
          | some r => r.status
          | none => JobStatus.unknown
        match env.addHistory with
        | Except.error e => failWith st₁ false none e
        | Except.ok _ =>
          let task₂ := { task with status := ProcessingStatus.completed
                                   currentPhase := ApplicationPhase.finalized }
          let st₂ : AppState :=
            { st₁ with activeTasks := ainsert st₁.activeTasks sessionId task₂ }
          match env.searchAndBroadcast with
          | Except.error e => failWith st₂ true (some matchStatus) e
          | Except.ok _ =>
            { result := Except.ok (), state := st₂
              historyWritten := true, historyStatus := some matchStatus }

/-- `finalize_application`.  Notable control flow, exactly as in the
source:
* unknown session / missing job info raise `ValueError`;
* in COVER_LETTER phase the line `task.cover_letter_data.customized =
  content` dereferences `cover_letter_data`, so a task whose
  `cover_letter_data` is still `None` raises `AttributeError` here;
* outside COVER_LETTER phase a `ValueError` is raised;
* the no-raise "missing expected data" log branch is reached only when
  `resume_data` is `None` (with `cover_letter_data` present). -/
def finalizeApplication (env : FinalizeEnv) (st : AppState)
    (sessionId content : String) : FinalizeOutcome :=
  match alookup st.activeTasks sessionId with
  | none =>
    { result := Except.error (PyError.valueError
        ("No task found for session: " ++ sessionId))
      state := st, historyWritten := false }
  | some task =>
    match getJobInfo st.cache task.jobId with
    | none =>
      { result := Except.error (PyError.valueError
          ("No job info found for job " ++ task.jobId))
        state := st, historyWritten := false }
    | some _ =>
      if task.currentPhase = ApplicationPhase.coverLetter then
        match task.coverLetterData with
        | none =>
          { result := Except.error (PyError.attributeError
              "NoneType object has no attribute customized")
            state := st, historyWritten := false }
        | some cl =>
          let cl₁ := { cl with customized := content }
          let task₁ := { task with coverLetterData := some cl₁ }
          let st₁ : AppState :=
            { st with activeTasks := ainsert st.activeTasks sessionId task₁ }
          match task₁.resumeData with
          | none =>
            -- `logger.error(... missing expected data)` — no raise, no write
            { result := Except.ok (), state := st₁, historyWritten := false }
          | some rd => finalizeTryBody env st₁ sessionId task₁ rd cl₁
      else
        { result := Except.error (PyError.valueError
            "Can only finalize from cover letter phase")
          state := st, historyWritten := false }

/-! ## Skill matcher (`modules/business/utils/skill_matcher.py` together
with the cache helpers of `modules/business/utils/utils.py`) -/

/-- A value stored in a Python similarity cache: either the
`(matched, method, score)` tuple written by the fuzzy/semantic passes of
`SimpleSkillMatcher`, or a bare float written by
`calculate_pairwise_similarities` (both kinds coexist in the same
`match_cache` dict). -/
inductive CacheVal where
  | tup : Bool → String → Rat → CacheVal
  | flo : Rat → CacheVal
deriving DecidableEq, Repr

/-- Python truthiness of a cache value: a non-empty tuple is truthy, a
float is truthy iff it is non-zero. -/
def CacheVal.truthy : CacheVal → Bool
  | CacheVal.tup _ _ _ => true
  | CacheVal.flo x => decide (x ≠ 0)

/-- `get_from_cache_symmetric(cache, key)`:
`cache.get(key) or cache.get(reverse_key)` — a *falsy* value stored under
`key` falls through to the reversed key. -/
def getFromCacheSymmetric {K V : Type} [DecidableEq K] (truthy : V → Bool)
    (swap : K → K) (cache : List (K × V)) (key : K) : Option V :=
  match alookup cache key with
  | some v => if truthy v then some v else alookup cache (swap key)
  | none => alookup cache (swap key)

/-- `calculate_pairwise_similarities`: first pass collects the (symmetric)
cache hits for every pair, second pass computes the misses (through the
similarity matrix, with `matrix_fn` already folded into `f`) and stores
them in the cache.  Generic over the key and value representation so the
same definition serves both the skill matcher (string-pair keys, tuple or
float values) and the title matcher. -/
def calcPairwiseSims {K V : Type} [DecidableEq K]
    (mk : String → String → K) (swap : K → K) (toV : Rat → V)
    (truthy : V → Bool) (f : String → String → Rat)
    (keys1 keys2 : List String) (cache : List (K × V)) :
    List (K × V) × List (K × V) :=
  let pairs := (keys1.map (fun a => keys2.map (fun b => (a, b)))).flatten
  let cachedPart := pairs.filterMap (fun p =>
    (getFromCacheSymmetric truthy swap cache (mk p.1 p.2)).map
      (fun v => (mk p.1 p.2, v)))
  let uncached := pairs.filter (fun p =>
    (getFromCacheSymmetric truthy swap cache (mk p.1 p.2)).isNone)
  let computed := uncached.map (fun p => (mk p.1 p.2, toV (f p.1 p.2)))
  (cachedPart ++ computed, computed.foldl (fun c pv => ainsert c pv.1 pv.2) cache)

/-- External collaborators and configuration of `SimpleSkillMatcher`. -/
structure SkillEnv where
  /-- `rapidfuzz.fuzz.ratio` (0–100 scale) -/
  fuzz : String → String → Rat
  /-- cosine similarity of the embedding model's vectors (0–1 scale) -/
  sem : String → String → Rat
  /-- `search.skip_required_skill` -/
  skipRequiredSkill : List String
  /-- `resume.skills['languages']` -/
  resumeLanguages : List String
  /-- `resume.skills` restricted to the category lists -/
  resumeSkills : List (String × List String)

/-- `self.fuzzy_threshold = 85`. -/
def fuzzyThreshold : Rat := 85

/-- `self.embedding_threshold = 0.85`. -/
def embeddingThreshold : Rat := 85/100

/-- `self.skill_categories`. -/
def skillCategories : List String :=
  ["programming languages", "frameworks", "mobile development",
   "other technical", "soft skills"]

/-- Order-preserving deduplication (Python `dict`/`set` keyed by the
first occurrence). -/
def dedupList (l : List String) : List String :=
  l.foldl (fun acc s => if acc.contains s then acc else acc ++ [s]) []

/-- The candidate skill list built by `evaluate_skills_match` (and,
identically, the resume-skill list of `__init__`): concatenation of
`resume.skills[category]` over the five categories, in category order. -/
def candidateSkills (env : SkillEnv) : List String :=
  skillCategories.foldl (fun acc cat =>
    acc ++ ((alookup env.resumeSkills cat).getD [])) []

/-- The key set of `self.resume_skill_embeddings` (a dict keyed by skill
text, hence deduplicated). -/
def resumeSkillKeys (env : SkillEnv) : List String :=
  dedupList (candidateSkills env)

/-- The skill matcher's `match_cache`. -/
abbrev SCache := List ((String × String) × CacheVal)

/-- The `all_matches` dict of `_batch_match_skills`:
`(req, candidate) -> (matched, method, score)`, keys in original
casing. -/
abbrev AllMatches := List ((String × String) × (Bool × String × Rat))

/-- One iteration of the fuzzy double-loop of `_batch_match_skills`.
`none` models a `TypeError`: `match, method, score = value` cannot unpack
a float cached by `calculate_pairwise_similarities`. -/
def fuzzyCell (env : SkillEnv) (st : AllMatches × SCache) (req cand : String) :
    Option (AllMatches × SCache) :=
  let key := (pyLower cand, pyLower req)
  match getFromCacheSymmetric CacheVal.truthy Prod.swap st.2 key with
  | some (CacheVal.tup m meth s) => some (ainsert st.1 (req, cand) (m, meth, s), st.2)
  | some (CacheVal.flo _) => none
  | none =>
    let score := env.fuzz (pyLower cand) (pyLower req)
    if score ≥ fuzzyThreshold then
      some (ainsert st.1 (req, cand) (true, "fuzzy", score),
            ainsert st.2 key (CacheVal.tup true "fuzzy" score))
    else
      some (ainsert st.1 (req, cand) (false, "none", score),
            ainsert st.2 key (CacheVal.tup false "none" score))

/-- Inner loop over candidates for one required skill. -/
def fuzzyRow (env : SkillEnv) (req : String) :
    List String → AllMatches × SCache → Option (AllMatches × SCache)
  | [], st => some st
  | cand :: rest, st =>
    match fuzzyCell env st req cand with
    | none => none
    | some st' => fuzzyRow env req rest st'

/-- Outer loop over required skills (first half of
`_batch_match_skills`). -/
def fuzzyPass (env : SkillEnv) (cands : List String) :
    List String → AllMatches × SCache → Option (AllMatches × SCache)
  | [], st => some st
  | req :: rest, st =>
    match fuzzyRow env req cands st with
    | none => none
    | some st' => fuzzyPass env cands rest st'

/-- `all_matches.get((req, cand))[0]` after the fuzzy pass (the pair is
always present there, so the `none` default is unexercised). -/
def amMatched (am : AllMatches) (req cand : String) : Bool :=
  match alookup am (req, cand) with
  | some v => v.1
  | none => false

/-- `reqs_needing_semantic`. -/
def reqsNeedingSemantic (cands reqs : List String) (am : AllMatches) : List String :=
  reqs.filter (fun req => ¬ cands.any (fun cand => amMatched am req cand))

/-- One iteration of the semantic post-processing double-loop.  A tuple
that leaked into the similarity result (a symmetric-cache collision)
makes `sim * 100` / `sim >= threshold` raise, modelled as `none`. -/
def semCell (_env : SkillEnv) (sims : List ((String × String) × CacheVal))
    (st : AllMatches × SCache) (req cand : String) :
    Option (AllMatches × SCache) :=
  match alookup sims (req, cand) with
  | none => some st
  | some (CacheVal.tup _ _ _) => none
  | some (CacheVal.flo sim) =>
    let score := sim * 100
    if sim ≥ embeddingThreshold then
      some (ainsert st.1 (req, cand) (true, "semantic", score),
            ainsert st.2 (pyLower cand, pyLower req) (CacheVal.tup true "semantic" score))
    else
      match alookup st.1 (req, cand) with
      | some old =>
        if score > old.2.2 then
          some (ainsert st.1 (req, cand) (false, "none", score),
                ainsert st.2 (pyLower cand, pyLower req) (CacheVal.tup false "none" score))
        else some st
      | none => some st

/-- Inner semantic loop over candidates. -/
def semRow (env : SkillEnv) (sims : List ((String × String) × CacheVal))
    (req : String) : List String → AllMatches × SCache → Option (AllMatches × SCache)
  | [], st => some st
  | cand :: rest, st =>
    match semCell env sims st req cand with
    | none => none
    | some st' => semRow env sims req rest st'

/-- Outer semantic loop over the requirements needing semantics. -/
def semPass (env : SkillEnv) (sims : List ((String × String) × CacheVal))
    (cands : List String) : List String → AllMatches × SCache → Option (AllMatches × SCache)
  | [], st => some st
  | req :: rest, st =>
    match semRow env sims req cands st with
    | none => none
    | some st' => semPass env sims cands rest st'

/-- `_batch_match_skills`. -/
def batchMatchSkills (env : SkillEnv) (cands reqs : List String)
    (cache : SCache) : Option (AllMatches × SCache) :=
  match fuzzyPass env cands reqs ([], cache) with
  | none => none
  | some (am, cache₁) =>
    let reqsSem := reqsNeedingSemantic cands reqs am
    if reqsSem.isEmpty then some (am, cache₁)
    else
      let cp := calcPairwiseSims Prod.mk Prod.swap CacheVal.flo CacheVal.truthy
        env.sem reqsSem (resumeSkillKeys env) cache₁
      semPass env cp.1 cands reqsSem (am, cp.2)

/-- `max(req_matches, key=lambda x: x[2])` over the matched entries of
`all_matches` whose requirement is `req` (first maximum wins, dict
iteration = insertion order). -/
def bestMatchFor (am : AllMatches) (req : String) :
    Option (String × String × Rat) :=
  let reqMatches := am.filterMap (fun e =>
    if e.1.1 = req ∧ e.2.1 then some (e.1.2, e.2.2.1, e.2.2.2) else none)
  match reqMatches with
  | [] => none
  | h :: t => some (t.foldl (fun best x => if x.2.2 > best.2.2 then x else best) h)

/-- The cache reads of the missing-skill branch (best-score logging).
They can only fail by unpacking a float (`_, _, score = value`), which is
the one observable effect modelled here. -/
def missingProbe (cache : SCache) (req : String) : List String → Option Unit
  | [] => some ()
  | cand :: rest =>
    match getFromCacheSymmetric CacheVal.truthy Prod.swap cache
        (pyLower cand, pyLower req) with
    | some (CacheVal.flo _) => none
    | _ => missingProbe cache req rest

/-- The match-counting loop of `evaluate_skills_match`: returns
(matches, matching_pairs, missing_skills).  Score formatting (`:.1f`) is
abstracted by `toString`. -/
def processReqs (cache : SCache) (cands : List String) (am : AllMatches) :
    List String → Option (Nat × List String × List String)
  | [] => some (0, [], [])
  | req :: rest =>
    match bestMatchFor am req with
    | some (cand, meth, score) =>
      (processReqs cache cands am rest).map (fun acc =>
        (acc.1 + 1,
         (req ++ " ~ " ++ cand ++ " (" ++ meth ++ ": " ++ toString score ++ "%)") :: acc.2.1,
         acc.2.2))
    | none =>
      match missingProbe cache req cands with
      | none => none
      | some _ =>
        (processReqs cache cands am rest).map (fun acc =>
          (acc.1, acc.2.1, req :: acc.2.2))

/-- The required-skill set of `evaluate_skills_match`: union of the
non-empty category lists, skipping `'soft skills'`; modelled as an
order-preserving deduplicated list (Python builds a `set`, whose
iteration order is unspecified — only membership and cardinality are
relied upon downstream). -/
def requiredSkillsOf (js : JobSkills) : List String :=
  skillCategories.foldl (fun acc cat =>
    if cat ≠ "soft skills" then
      match alookup js.cats cat with
      | some skills =>
        if skills ≠ [] then
          skills.foldl (fun a s => if a.contains s then a else a ++ [s]) acc
        else acc
      | none => acc
    else acc) []

/-- The branch taken by `evaluate_skills_match` before reason-string
assembly. -/
inductive SkillOutcome where
  | langFail : List String → SkillOutcome
  | noRequired : SkillOutcome
  | blacklistFail : String → SkillOutcome
  | scored : Nat → Nat → List String → List String → SkillOutcome
deriving DecidableEq, Repr

/-- The required-language check at the top of `evaluate_skills_match`:
the (upper-cased, deduplicated) required languages missing from the
resume, or `none` when the check passes. -/
def langMissingOf (env : SkillEnv) (js : JobSkills) : Option (List String) :=
  match js.languages with
  | some lr =>
    if lr.required ≠ [] then
      let resumeLangsU := env.resumeLanguages.map pyUpper
      let missing := (dedupList (lr.required.map pyUpper)).filter
        (fun l => ¬ resumeLangsU.contains l)
      if missing ≠ [] then some missing else none
    else none
  | none => none

/-- `evaluate_skills_match` up to (and including) the match counting;
`none` models an uncaught exception inside the matcher. -/
def skillMatchOutcome (env : SkillEnv) (cache : SCache) (js : JobSkills) :
    Option (SkillOutcome × SCache) :=
  match langMissingOf env js with
  | some missing => some (SkillOutcome.langFail missing, cache)
  | none =>
    let cands := candidateSkills env
    let reqs := requiredSkillsOf js
    if reqs = [] then some (SkillOutcome.noRequired, cache)
    else
      match reqs.find? (fun r =>
          env.skipRequiredSkill.any (fun s => pyLower r = pyLower s)) with
      | some r => some (SkillOutcome.blacklistFail r, cache)
      | none =>
        match batchMatchSkills env cands reqs cache with
        | none => none
        | some (am, cache₁) =>
          match processReqs cache₁ cands am reqs with
          | none => none
          | some acc =>
            some (SkillOutcome.scored acc.1 reqs.length acc.2.1 acc.2.2, cache₁)

/-- `match_ratio = float(matches) / len(required_skills)` as computed on
the scored path (undefined on the early-return paths and on a crash). -/
def matchFrac (env : SkillEnv) (cache : SCache) (js : JobSkills) : Option Rat :=
  match skillMatchOutcome env cache js with
  | some (SkillOutcome.scored n total _ _, _) => some ((n : Rat) / (total : Rat))
  | _ => none

/-- `evaluate_skills_match`: final reason assembly and the
`match_ratio >= 0.5` verdict. -/
def evaluateSkillsMatch (env : SkillEnv) (cache : SCache) (js : JobSkills) :
    Option ((Bool × List String) × SCache) :=
  match skillMatchOutcome env cache js with
  | none => none
  | some (SkillOutcome.langFail missing, c) =>
    some ((false,
      ["Missing required languages: " ++ joinSep ", " missing]), c)
  | some (SkillOutcome.noRequired, c) =>
    some ((false, ["No required skills found in job description"]), c)
  | some (SkillOutcome.blacklistFail r, c) =>
    some ((false, ["Job required skills is blacklisted: " ++ r]), c)
  | some (SkillOutcome.scored n total pairs miss, c) =>
    let reasons :=
      (if pairs ≠ [] then
        ["Matching skills: " ++ joinSep ", " pairs] else []) ++
      (if miss ≠ [] then
        ["Missing skills: " ++ joinSep ", " miss] else [])
    some (((n : Rat) / (total : Rat) ≥ 1/2, reasons), c)

/-- Adding one candidate skill to a category of the configured resume
skills (appended to an existing category list, or opening the
category). -/
def addResumeSkill (rs : List (String × List String)) (cat s : String) :
    List (String × List String) :=
  match alookup rs cat with
  | some l => ainsert rs cat (l ++ [s])
  | none => rs ++ [(cat, [s])]

/-! ## Title matcher (`modules/business/utils/title_matcher.py`,
`AdvancedEmbeddingMatcher.match_title`) -/

/-- The score cache of `AdvancedEmbeddingMatcher` maps tuple keys to
floats.  The second component is an `Option` because line 419 stores
`(job_title, best_match)` where `best_match` may be `None`. -/
abbrev TCache := List ((String × Option String) × Rat)

/-- Key reversal for the symmetric lookup.  Lookup keys always carry a
`some` second component; the `(a, none)` case is never reached from a
lookup and maps to itself. -/
def tkSwap : String × Option String → String × Option String
  | (a, some b) => (b, some a)
  | (a, none) => (a, none)

/-- Truthiness of a float cache value. -/
def ratTruthy (v : Rat) : Bool := decide (v ≠ 0)

/-- `find_best_match_from_cache(cache, key, key_list)`. -/
def findBestMatchFromCache (cache : TCache) (key : String)
    (keyList : List String) : Rat × Option String :=
  keyList.foldl (fun best k2 =>
    match getFromCacheSymmetric ratTruthy tkSwap cache (key, some k2) with
    | some score => if score ≠ 0 ∧ score > best.1 then (score, some k2) else best
    | none => best) ((0 : Rat), (none : Option String))

/-- Configuration of `AdvancedEmbeddingMatcher`: `adjSim` is the
penalty-adjusted similarity (cosine similarity of the embedding model
composed with the domain/seniority penalty matrix function of
`get_similarity_with_preferred`). -/
structure TitleEnv where
  adjSim : String → String → Rat
  preferredTitles : List String

/-- `AdvancedEmbeddingMatcher.match_title`: symmetric-cache best-match
probe, then `get_similarity_with_preferred` (whose pairwise-similarity
call reads **and writes** `self.cache` with no capacity check), then the
explicit store of the best pair, which alone is guarded by
`len(self.cache) < TITLE_MATCH_SETTINGS['cache_size']`. -/
def matchTitleAdv (env : TitleEnv) (cache : TCache) (jobTitle : String) :
    Rat × TCache :=
  let hit := findBestMatchFromCache cache jobTitle env.preferredTitles
  match hit.2 with
  | some _ => (hit.1, cache)
  | none =>
    let cp := calcPairwiseSims (fun a b => (a, some b)) tkSwap id ratTruthy
      env.adjSim [jobTitle] env.preferredTitles cache
    let best := env.preferredTitles.foldl (fun best t2 =>
      let score := (alookup cp.1 (jobTitle, some t2)).getD 0
      if score > best.1 then (score, some t2) else best)
      ((0 : Rat), (none : Option String))
    let cache₂ :=
      if cp.2.length < TITLE_MATCH_cacheSize then
        ainsert cp.2 (jobTitle, best.2) best.1
      else cp.2
    (best.1, cache₂)

/-! ## Derived predicates used in the skill-matcher characterisation -/

/-- The tuple stored in `all_matches` by the fuzzy pass for `(req, cand)`. -/
def fzTriple (env : SkillEnv) (req cand : String) : Bool × String × Rat :=
  let score := env.fuzz (pyLower cand) (pyLower req)
  if score ≥ fuzzyThreshold then (true, "fuzzy", score) else (false, "none", score)

/-- The tuple held by `all_matches` for `(req, cand)` after the semantic
post-processing (for a requirement that had no fuzzy match). -/
def sTriple (env : SkillEnv) (req cand : String) : Bool × String × Rat :=
  let sim := env.sem req cand
  if sim ≥ embeddingThreshold then (true, "semantic", sim * 100)
  else if sim * 100 > (fzTriple env req cand).2.2 then (false, "none", sim * 100)
  else fzTriple env req cand

/-- The cache value written by the fuzzy pass for a (lower-cased) key. -/
def mkFuzzVal (env : SkillEnv) (a b : String) : CacheVal :=
  CacheVal.tup (env.fuzz a b ≥ fuzzyThreshold)
    (if env.fuzz a b ≥ fuzzyThreshold then "fuzzy" else "none")
    (env.fuzz a b)

/-- Some candidate clears the fuzzy threshold for `req`. -/
def anyFuzzy (env : SkillEnv) (cands : List String) (req : String) : Bool :=
  cands.any (fun c => env.fuzz (pyLower c) (pyLower req) ≥ fuzzyThreshold)

/-- Some candidate clears the semantic threshold for `req`. -/
def anySem (env : SkillEnv) (cands : List String) (req : String) : Bool :=
  cands.any (fun c => env.sem req c ≥ embeddingThreshold)

/-- A requirement counts as matched iff some candidate clears the fuzzy
threshold, or — otherwise — some candidate clears the semantic
threshold. -/
def matchedPred (env : SkillEnv) (cands : List String) (req : String) : Bool :=
  anyFuzzy env cands req || anySem env cands req

/-- The final `all_matches` tuple for `(req, cand)`. -/
def finalTriple (env : SkillEnv) (cands : List String) (req cand : String) :
    Bool × String × Rat :=
  if anyFuzzy env cands req then fzTriple env req cand else sTriple env req cand

/-- No requirement or candidate coincides with the lower-casing of a
candidate skill.  This separates the lower-cased tuple keys written by
the fuzzy/semantic passes from the original-cased float keys written by
`calculate_pairwise_similarities` into the same `match_cache`, ruling out
the type-confusing symmetric collisions between them. -/
def noLowerCollision (reqs cands : List String) : Prop :=
  ∀ x ∈ reqs ++ cands, ∀ c ∈ cands, x ≠ pyLower c

/-- Shape invariant of the skill matcher's `match_cache` during one
`evaluate_skills_match` call that started from an empty cache: tuple
entries sit under lower-cased candidate-first keys, float entries under
original-cased (requirement, resume-skill) keys. -/
def cacheShape (env : SkillEnv) (reqs cands : List String) (cache : SCache) : Prop :=
  ∀ a b v, alookup cache (a, b) = some v →
    match v with
    | CacheVal.tup _ _ _ => a ∈ cands.map pyLower
    | CacheVal.flo _ => a ∈ reqs ∧ b ∈ resumeSkillKeys env

/-- Value invariant of the fuzzy pass: every cache entry is the fuzzy
tuple of its (lower-cased) key. -/
def fuzzValShape (env : SkillEnv) (cache : SCache) : Prop :=
  ∀ a b v, alookup cache (a, b) = some v → v = mkFuzzVal env a b

/-! ## Concrete fixtures used by witnesses and counterexamples -/

/-- A neutral Glassdoor rating. -/
def gdOk : GlassdoorRating := { rating := 4, reviewCount := 100, isValid := true }

/-- A concrete detailed job posting. -/
def jobX : JobDetailedInfo :=
  { jobId := "job-1", title := "Software Engineer", company := "Acme"
    location := "Berlin, Germany", glassdoorRating := gdOk
    description := "We build things. minimum 5 years of experience required." }

/-- A concrete collaborator environment for the detailed filter in which
every external call succeeds. -/
def envBase : DetailedEnv :=
  { isBlacklisted := fun _ => false
    isRejected := fun _ => false
    detectLanguage := fun _ => (some "ENGLISH", 1)
    resumeLanguages := ["ENGLISH"]
    didMasters := false
    matchTitle := fun _ => Except.ok 2
    relevantExperience := fun _ => Except.ok 6
    findExpMatches := fun _ => []
    batchExtract := fun _ _ => Except.ok ({}, {}, {}, VisaSupport.supported)
    evaluateSkills := fun _ => Except.ok (true, ["Matching skills: x"]) }

/-- `envBase` with a failing title matcher (step 3). -/
def envTitleFail : DetailedEnv :=
  { envBase with matchTitle := fun _ => Except.error "title model failure" }

/-- `envBase` with a failing extraction call (step 4). -/
def envExtractFail : DetailedEnv :=
  { envBase with batchExtract := fun _ _ => Except.error "claude overloaded" }

/-- `envBase` whose regex collaborator finds "minimum 5 years". -/
def envRegexFive : DetailedEnv :=
  { envBase with findExpMatches := fun _ =>
      [{ value := some 5, text := "minimum 5 years" }] }

/-- An experience dict whose external value is unavailable
(`years = -1`, the sentinel the `>= 0` guard treats as absent). -/
def expDictNoExternal : ExpDict := { years := some (-1), months := some (-1) }

/-- A cached preliminary-typed filter result for `job-1`. -/
def prelimResp0 : JobStatusResponse :=
  { status := JobStatus.possibleMatch, reasons := ["Title somewhat matches"]
    titleScore := some 1, filterType := FilterType.preliminary, timestamp := 0 }

/-- A cached detailed-typed filter result for `job-1`. -/
def detResp0 : JobStatusResponse :=
  { status := JobStatus.confirmedMatch, reasons := ["ok"]
    titleScore := some 1, matched := some true
    filterType := FilterType.detailed, timestamp := 0 }

/-- Cache state holding a preliminary result for `job-1`. -/
def stPrelimCached : CacheState := { filterCache := [("job-1", prelimResp0)] }

/-- Cache state holding a detailed result for `job-1`. -/
def stDetCached : CacheState := { filterCache := [("job-1", detResp0)] }

/-- An analysis with UNSUPPORTED visa for the C6 witness. -/
def analysisNoVisa : JobAnalysisInfo :=
  { skillsDict := {}, experienceDict := {}, redFlagsDict := {}
    visaSupport := VisaSupport.unsupported, postLanguage := "ENGLISH"
    timestamp := 0 }

/-- Cache state holding the UNSUPPORTED-visa analysis for `job-1`. -/
def stVisaAnalysis : CacheState :=
  { jobAnalysisCache := [("job-1", analysisNoVisa)] }

/-- The response `detailed_filter` builds at the visa gate. -/
def visaNoMatchResponse (ts now : Rat) : JobStatusResponse :=
  { status := JobStatus.confirmedNoMatch, matched := some false
    reasons := ["Job does not provide visa support"]
    titleScore := some ts, filterType := FilterType.detailed, timestamp := now }

/-- A concrete preliminary-filter environment. -/
def penvBase : PrelimEnv :=
  { badWordMatch := fun _ => none
    isBlacklisted := fun _ => false
    isRejected := fun _ => false
    removeLangWords := fun s => s
    detectLanguage := fun _ => (some "ENGLISH", 1)
    resumeLanguages := ["ENGLISH"]
    matchTitle := fun _ => 1 }

/-- The `JobInfo` view of `jobX`. -/
def jobXInfo : JobInfo :=
  { jobId := "job-1", title := "Software Engineer", company := "Acme"
    location := "Berlin, Germany", glassdoorRating := gdOk }

/-- A finalize environment in which every external call succeeds. -/
def finEnv0 : FinalizeEnv :=
  { resumePdf := fun _ _ => Except.ok "resume.pdf"
    coverPdf := fun _ _ => Except.ok "cover.pdf"
    copyFiles := fun _ _ => Except.ok ()
    addHistory := Except.ok ()
    searchAndBroadcast := Except.ok ()
    now := 0 }

/-- A task in COVER_LETTER phase whose `cover_letter_data` is still
null (resume data present). -/
def taskNoCoverData : ActiveTask :=
  { jobId := "job-1", applyType := ApplyType.easy
    currentPhase := ApplicationPhase.coverLetter
    resumeData := some { original := "orig", customized := "cust" }
    coverLetterData := none }

/-- A task in COVER_LETTER phase with cover-letter data but no resume
data. -/
def taskNoResumeData : ActiveTask :=
  { jobId := "job-1", applyType := ApplyType.easy
    currentPhase := ApplicationPhase.coverLetter
    resumeData := none
    coverLetterData := some { original := "tmpl", customized := "body" } }

/-- Application state for the C9 counterexample. -/
def stC9 : AppState :=
  { activeTasks := [("sess-1", taskNoCoverData)]
    cache := { jobInfoCache := [("job-1", jobX)] } }

/-- Application state for the C9 witness (missing resume data). -/
def stC9b : AppState :=
  { activeTasks := [("sess-1", taskNoResumeData)]
    cache := { jobInfoCache := [("job-1", jobX)] } }

/-- A full title-matcher cache: 1000 distinct single-title entries. -/
def fullTitleCache : TCache :=
  (List.range TITLE_MATCH_cacheSize).map
    (fun i => ((toString i, some "Python Developer"), (1 : Rat)))

/-- A concrete advanced title matcher configuration. -/
def titleEnv0 : TitleEnv :=
  { adjSim := fun _ _ => 2, preferredTitles := ["Python Developer"] }

/-- A concrete skill matcher configuration: constant collaborators (hence
trivially symmetric), one candidate skill, blank blacklists. -/
def skillEnv0 : SkillEnv :=
  { fuzz := fun _ _ => 90
    sem := fun _ _ => 0
    skipRequiredSkill := []
    resumeLanguages := ["ENGLISH"]
    resumeSkills := [("programming languages", ["Python"])] }

/-- `skillEnv0` with one more candidate skill added to a category. -/
def skillEnv1 : SkillEnv :=
  { skillEnv0 with resumeSkills :=
      addResumeSkill skillEnv0.resumeSkills "frameworks" "Django" }

/-- A concrete job-skills dict requiring two skills. -/
def jsTwoReqs : JobSkills :=
  { languages := some { required := ["ENGLISH"] }
    cats := [("programming languages", ["Java", "Kotlin"])] }

/-- A concrete ERROR-status response. -/
def errResp0 : JobStatusResponse :=
  { status := JobStatus.error, reasons := ["Error in analysis: boom"]
    timestamp := 0 }

/-! # Shared lemmas -/

theorem alookup_ainsert {K V : Type} [DecidableEq K]
    (l : List (K × V)) (k p : K) (v : V) :
    alookup (ainsert l k v) p = if k = p then some v else alookup l p := by
  by_cases h : k = p
  · subst h
    simp [alookup_ainsert_self]
  · simp [h, alookup_ainsert_ne l k p v h]

theorem getFilterResult_snd_analysis (now : Rat) (st : CacheState) (jobId : String) :
    ((getFilterResult now st jobId).2).jobAnalysisCache = st.jobAnalysisCache := by
  unfold getFilterResult
  rcases alookup st.filterCache jobId with _ | cached
  · rfl
  · by_cases h : now - cached.timestamp > 604800 <;> simp [h]

theorem getFilterResult_snd_info (now : Rat) (st : CacheState) (jobId : String) :
    ((getFilterResult now st jobId).2).jobInfoCache = st.jobInfoCache := by
  unfold getFilterResult
  rcases alookup st.filterCache jobId with _ | cached
  · rfl
  · by_cases h : now - cached.timestamp > 604800 <;> simp [h]

/-! # Claim theorems -/

/-- **C2** (no error caching): writing a `JobStatusResponse` whose status
is ERROR through `set_filter_result` leaves the filter cache unchanged,
so a subsequent `get_filter_result` (for any job id) returns exactly what
it would have returned before the write; moreover `detailed_filter`'s
exception path performs no filter-cache write at all, so the ERROR result
built by the exception handler (whose status is ERROR) is never
persisted. -/
theorem C2_no_error_caching :
    (∀ (st : CacheState) (jobId : String) (res : JobStatusResponse),
      res.status = JobStatus.error → setFilterResult st jobId res = st)
    ∧ (∀ (st : CacheState) (jobId q : String) (res : JobStatusResponse) (now : Rat),
      res.status = JobStatus.error →
      getFilterResult now (setFilterResult st jobId res) q = getFilterResult now st q)
    ∧ (∀ (env : DetailedEnv) (now : Rat) (job : JobDetailedInfo)
        (postLang : String) (ts : Rat) (st : CacheState) (e : String),
      (detailedTryBody env now job postLang ts st).1 = Except.error e →
      (detailedTryBody env now job postLang ts st).2.filterCache = st.filterCache
        ∧ (detailedErrorResponse e ts now).status = JobStatus.error) := by
  refine ⟨?_, ?_, ?_⟩
  · intro st jobId res h
    simp [setFilterResult, h]
  · intro st jobId q res now h
    simp [setFilterResult, h]
  · intro env now job postLang ts st e herr
    refine ⟨?_, rfl⟩
    unfold detailedTryBody at herr ⊢
    rcases hga : getJobAnalysis st job.jobId with _ | a
    · rcases hbe : env.batchExtract job.description postLang with eb | ok
      · simp [hga, hbe]
      · obtain ⟨s, ed, r, v⟩ := ok
        simp only [hga, hbe] at herr ⊢
        rcases hcv : checkVisaAndRedFlags v r with ⟨_ | status, reason⟩
        · simp only [hcv] at herr ⊢
          rcases hsk : skipForExperienceLength env job ed 1 with es | ⟨b, reason'⟩
          · simp [hsk, setJobAnalysis]
          · rcases b with _ | _
            · simp only [hsk] at herr ⊢
              rcases hev : env.evaluateSkills s with ee | ⟨im, rs⟩
              · simp [hev, setJobAnalysis]
              · simp [hev] at herr
            · simp [hsk] at herr
        · simp [hcv] at herr
    · simp only [hga] at herr ⊢
      rcases hcv : checkVisaAndRedFlags a.visaSupport a.redFlagsDict with ⟨_ | status, reason⟩
      · simp only [hcv] at herr ⊢
        rcases hsk : skipForExperienceLength env job a.experienceDict 1 with es | ⟨b, reason'⟩
        · simp [hsk]
        · rcases b with _ | _
          · simp only [hsk] at herr ⊢
            rcases hev : env.evaluateSkills a.skillsDict with ee | ⟨im, rs⟩
            · simp [hev]
            · simp [hev] at herr
          · simp [hsk] at herr
      · simp [hcv] at herr

/-- **C3** (TTL invariant): a non-ERROR result stored by
`set_filter_result` with timestamp `T` is returned by `get_filter_result`
at every read time up to `T + 604800` (in particular at T+6 days), and at
every later read time (in particular T+8 days) the read returns nothing
and the entry has been removed from the cache — expiry happens lazily on
this read. -/
theorem C3_ttl_invariant :
    ∀ (st : CacheState) (jobId : String) (res : JobStatusResponse) (T tr : Rat),
      res.status ≠ JobStatus.error → res.timestamp = T →
      ((tr < T + 604800 →
        (getFilterResult tr (setFilterResult st jobId res) jobId).1 = some res)
      ∧ (tr > T + 604800 →
        (getFilterResult tr (setFilterResult st jobId res) jobId).1 = none
        ∧ alookup ((getFilterResult tr (setFilterResult st jobId res) jobId).2).filterCache
            jobId = none)) := by
  intro st jobId res T tr hne hts
  have hset : setFilterResult st jobId res =
      { st with filterCache := ainsert st.filterCache jobId res } := by
    simp [setFilterResult, hne]
  have hlook : alookup (ainsert st.filterCache jobId res) jobId = some res :=
    alookup_ainsert_self _ _ _
  constructor
  · intro hlt
    have hcond : ¬ (tr - res.timestamp > 604800) := by
      rw [hts]
      linarith
    simp [hset, getFilterResult, hlook, hcond]
  · intro hgt
    have hcond : tr - res.timestamp > 604800 := by
      rw [hts]
      linarith
    refine ⟨?_, ?_⟩
    · simp [hset, getFilterResult, hlook, hcond]
    · simp only [hset, getFilterResult, hlook, hcond, if_true]
      simpa using alookup_aerase_self (ainsert st.filterCache jobId res) jobId

/-- **C3 witness**: at `T = 0`, a result written at time 0 is still
returned at 6 days (518400 s) and is gone — entry removed — at 8 days
(691200 s). -/
theorem C3_ttl_invariant_witness :
    (getFilterResult 518400 (setFilterResult {} "job-1" detResp0) "job-1").1 = some detResp0
    ∧ (getFilterResult 691200 (setFilterResult {} "job-1" detResp0) "job-1").1 = none
    ∧ alookup ((getFilterResult 691200 (setFilterResult {} "job-1" detResp0) "job-1").2).filterCache
        "job-1" = none := by
  have h := C3_ttl_invariant {} "job-1" detResp0 0 518400 (by decide) (by decide)
  have h' := C3_ttl_invariant {} "job-1" detResp0 0 691200 (by decide) (by decide)
  exact ⟨h.1 (by norm_num), (h'.2 (by norm_num)).1, (h'.2 (by norm_num)).2⟩

/-- If the cached entry for the job (when any) is not DETAILED-typed,
`detailed_filter` falls through to the rest of the pipeline. -/
theorem detailedFilter_cache_bypass (env : DetailedEnv) (now : Rat)
    (job : JobDetailedInfo) (st : CacheState)
    (hcache : ∀ c, (getFilterResult now (setJobInfo st job.jobId job) job.jobId).1 = some c →
      c.filterType ≠ FilterType.detailed) :
    detailedFilter env now job st =
      detailedRest env now job
        (getFilterResult now (setJobInfo st job.jobId job) job.jobId).2 := by
  unfold detailedFilter
  rcases hp : getFilterResult now (setJobInfo st job.jobId job) job.jobId with ⟨_ | c, st₂⟩
  · simp [hp]
  · have hne := hcache c (by rw [hp])
    simp [hp, hne]

/-- If the cached entry for the job (when any) is not PRELIMINARY-typed,
the per-job preliminary step falls through to the rest of the checks. -/
theorem preliminary_cache_bypass (env : PrelimEnv) (now : Rat)
    (st : CacheState) (job : JobInfo)
    (hcache : ∀ c, (getFilterResult now st job.jobId).1 = some c →
      c.filterType ≠ FilterType.preliminary) :
    preliminaryProcessJob env now st job =
      preliminaryRest env now (getFilterResult now st job.jobId).2 job := by
  unfold preliminaryProcessJob
  rcases hp : getFilterResult now st job.jobId with ⟨_ | c, st₂⟩
  · simp [hp]
  · have hne := hcache c (by rw [hp])
    simp [hp, hne]

/-- Under the conditions that reach step 3 (not skipped, language
present), `detailed_filter` reduces through `detailedRest` to the title
match and the try-body. -/
theorem detailedRest_no_skip (env : DetailedEnv) (now : Rat)
    (job : JobDetailedInfo) (st : CacheState)
    (hskip : (shouldSkipJob env job).1 = false)
    (hlang : (shouldSkipJob env job).2.2 ≠ none) :
    detailedRest env now job st =
      match env.matchTitle job.title with
      | Except.error e => Except.error e
      | Except.ok titleScore =>
        match detailedTryBody env now job ((shouldSkipJob env job).2.2.getD "")
            titleScore st with
        | (Except.ok r, st') => Except.ok (r, st')
        | (Except.error e, st') =>
          Except.ok (detailedErrorResponse e titleScore now, st') := by
  unfold detailedRest
  simp [hskip, hlang]

/-- **C1** (cache-type isolation): for every job id and every cache
state, `detailed_filter` does not honour a cached result whose
`filter_type` is not DETAILED (it runs the full detailed pipeline
instead), and the preliminary filter does not honour a cached result
whose `filter_type` is not PRELIMINARY. -/
theorem C1_cache_type_isolation :
    (∀ (env : DetailedEnv) (now : Rat) (job : JobDetailedInfo) (st : CacheState)
        (c : JobStatusResponse),
      (getFilterResult now (setJobInfo st job.jobId job) job.jobId).1 = some c →
      c.filterType = FilterType.preliminary →
      detailedFilter env now job st =
        detailedRest env now job
          (getFilterResult now (setJobInfo st job.jobId job) job.jobId).2)
    ∧ (∀ (env : PrelimEnv) (now : Rat) (st : CacheState) (job : JobInfo)
        (c : JobStatusResponse),
      (getFilterResult now st job.jobId).1 = some c →
      c.filterType = FilterType.detailed →
      preliminaryProcessJob env now st job =
        preliminaryRest env now (getFilterResult now st job.jobId).2 job) := by
  constructor
  · intro env now job st c h htype
    refine detailedFilter_cache_bypass env now job st ?_
    intro c' h'
    have hcc : c' = c := Option.some.inj (h'.symm.trans h)
    rw [hcc, htype]
    intro hcontra
    cases hcontra
  · intro env now st job c h htype
    refine preliminary_cache_bypass env now st job ?_
    intro c' h'
    have hcc : c' = c := Option.some.inj (h'.symm.trans h)
    rw [hcc, htype]
    intro hcontra
    cases hcontra

/-- **C1 witness**: with a PRELIMINARY result cached for `job-1`, the
detailed filter recomputes rather than returning it; with a DETAILED
result cached, the preliminary filter recomputes rather than returning
it. -/
theorem C1_cache_type_isolation_witness :
    (getFilterResult 0 (setJobInfo stPrelimCached "job-1" jobX) "job-1").1 = some prelimResp0
    ∧ detailedFilter envBase 0 jobX stPrelimCached =
        detailedRest envBase 0 jobX
          (getFilterResult 0 (setJobInfo stPrelimCached "job-1" jobX) "job-1").2
    ∧ (getFilterResult 0 stDetCached "job-1").1 = some detResp0
    ∧ preliminaryProcessJob penvBase 0 stDetCached jobXInfo =
        preliminaryRest penvBase 0 (getFilterResult 0 stDetCached "job-1").2 jobXInfo := by
  have h1 : (getFilterResult 0 (setJobInfo stPrelimCached "job-1" jobX) "job-1").1
      = some prelimResp0 := by
    simp [getFilterResult, setJobInfo, stPrelimCached, prelimResp0, alookup]
    decide
  have h2 : (getFilterResult 0 stDetCached "job-1").1 = some detResp0 := by
    simp [getFilterResult, stDetCached, detResp0, alookup]
    decide
  refine ⟨h1, ?_, h2, ?_⟩
  · exact C1_cache_type_isolation.1 envBase 0 jobX stPrelimCached prelimResp0
      h1 (by decide)
  · exact C1_cache_type_isolation.2 penvBase 0 stDetCached jobXInfo detResp0
      h2 (by decide)

/-- **C4**: on the failing input — a description whose regex scan finds
"minimum 5 years" while the external value is unavailable (`years = -1`)
— `extract_years_of_experience` returns `0`, not the regex value `5`:
`claude_exp` is initialised to `0` (never `None`), so the regex-fallback
branch is unreachable and the externally-unavailable case is conflated
with an external value of `0`. -/
theorem C4_regex_fallback_unreachable :
    extractYearsOfExperience envRegexFive jobX.description expDictNoExternal = 0
    ∧ regexExpOf (envRegexFive.findExpMatches jobX.description) = some 5
    ∧ claudeExpOf expDictNoExternal = 0
    ∧ (∀ (env : DetailedEnv) (description : String) (e : ExpDict),
        extractYearsOfExperience env description e = claudeExpOf e) := by
  refine ⟨by decide, by decide, by decide, ?_⟩
  intro env description e
  unfold extractYearsOfExperience
  rcases regexExpOf (env.findExpMatches description) with _ | r <;> rfl

/-- **C5 counterexample**: with a failing title matcher (step 3 of the
detailed pipeline) the exception propagates out of `detailed_filter`
instead of degrading to an ERROR-status response — the title-scoring call
sits outside the try-block. -/
theorem C5_counterexample_step3_propagates :
    detailedFilter envTitleFail 0 jobX {} = Except.error "title model failure" := by
  decide

/-- **C5 (amended)**: for every collaborator behaviour, an exception in
steps 4–7 of `detailed_filter` (analysis extraction, visa/red-flag gate,
experience gate, skill match) is caught and turned into a returned
`JobStatusResponse` with status ERROR whose reason carries the exception
text and whose `title_score` is the computed score; an exception in step
3 (title scoring) instead propagates to the caller. -/
theorem C5_pipeline_error_degradation :
    (∀ (env : DetailedEnv) (now : Rat) (job : JobDetailedInfo) (st : CacheState)
       (ts : Rat) (e : String),
      (∀ c, (getFilterResult now (setJobInfo st job.jobId job) job.jobId).1 = some c →
        c.filterType ≠ FilterType.detailed) →
      (shouldSkipJob env job).1 = false →
      (shouldSkipJob env job).2.2 ≠ none →
      env.matchTitle job.title = Except.ok ts →
      (detailedTryBody env now job ((shouldSkipJob env job).2.2.getD "") ts
        (getFilterResult now (setJobInfo st job.jobId job) job.jobId).2).1 =
          Except.error e →
      detailedFilter env now job st = Except.ok (detailedErrorResponse e ts now,
        (detailedTryBody env now job ((shouldSkipJob env job).2.2.getD "") ts
          (getFilterResult now (setJobInfo st job.jobId job) job.jobId).2).2)
      ∧ (detailedErrorResponse e ts now).status = JobStatus.error
      ∧ (detailedErrorResponse e ts now).reasons = ["Error in analysis: " ++ e]
      ∧ (detailedErrorResponse e ts now).titleScore = some ts)
    ∧ (∀ (env : DetailedEnv) (now : Rat) (job : JobDetailedInfo) (st : CacheState)
       (e : String),
      (∀ c, (getFilterResult now (setJobInfo st job.jobId job) job.jobId).1 = some c →
        c.filterType ≠ FilterType.detailed) →
      (shouldSkipJob env job).1 = false →
      (shouldSkipJob env job).2.2 ≠ none →
      env.matchTitle job.title = Except.error e →
      detailedFilter env now job st = Except.error e) := by
  constructor
  · intro env now job st ts e hcache hskip hlang htitle herr
    refine ⟨?_, rfl, rfl, rfl⟩
    rw [detailedFilter_cache_bypass env now job st hcache,
        detailedRest_no_skip env now job _ hskip hlang, htitle]
    rcases htb : detailedTryBody env now job ((shouldSkipJob env job).2.2.getD "") ts
        (getFilterResult now (setJobInfo st job.jobId job) job.jobId).2 with ⟨res, st'⟩
    rw [htb] at herr
    simp only at herr
    subst herr
    simp [htb]
  · intro env now job st e hcache hskip hlang htitle
    rw [detailedFilter_cache_bypass env now job st hcache,
        detailedRest_no_skip env now job _ hskip hlang, htitle]

/-- **C5 witness**: with a failing extraction call the pipeline returns
the ERROR response (not cached), and with a failing title matcher the
exception surfaces. -/
theorem C5_pipeline_error_degradation_witness :
    detailedFilter envExtractFail 0 jobX {} = Except.ok
      (detailedErrorResponse "claude overloaded" 2 0,
       (detailedTryBody envExtractFail 0 jobX
         ((shouldSkipJob envExtractFail jobX).2.2.getD "") 2
         (getFilterResult 0 (setJobInfo {} jobX.jobId jobX) jobX.jobId).2).2)
    ∧ detailedFilter envTitleFail 0 jobX {} = Except.error "title model failure" := by
  constructor
  · refine (C5_pipeline_error_degradation.1 envExtractFail 0 jobX {} 2
      "claude overloaded" ?_ (by decide) (by decide) (by decide) (by decide)).1
    intro c h
    rw [show (getFilterResult 0 (setJobInfo {} jobX.jobId jobX) jobX.jobId).1 = none
      from by decide] at h
    cases h
  · refine C5_pipeline_error_degradation.2 envTitleFail 0 jobX {} "title model failure"
      ?_ (by decide) (by decide) (by decide)
    intro c h
    rw [show (getFilterResult 0 (setJobInfo {} jobX.jobId jobX) jobX.jobId).1 = none
      from by decide] at h
    cases h

/-- **C2 witness**: writing a concrete ERROR result over an existing
cache entry changes nothing, and a concrete failing-extraction run of the
try-body leaves the filter cache untouched. -/
theorem C2_no_error_caching_witness :
    setFilterResult stPrelimCached "job-1" errResp0 = stPrelimCached
    ∧ getFilterResult 0 (setFilterResult stPrelimCached "job-1" errResp0) "job-1"
        = getFilterResult 0 stPrelimCached "job-1"
    ∧ ((detailedTryBody envExtractFail 0 jobX "ENGLISH" 2 {}).2.filterCache
          = ({} : CacheState).filterCache
       ∧ (detailedErrorResponse "claude overloaded" 2 0).status = JobStatus.error) :=
  ⟨C2_no_error_caching.1 stPrelimCached "job-1" errResp0 (by decide),
   C2_no_error_caching.2.1 stPrelimCached "job-1" "job-1" errResp0 0 (by decide),
   C2_no_error_caching.2.2 envExtractFail 0 jobX "ENGLISH" 2 {} "claude overloaded"
     (by decide)⟩

/-- **C6** (visa and red-flag gate): UNSUPPORTED visa support forces
CONFIRMED_NO_MATCH with the "visa support" reason regardless of
everything else; otherwise a red-flag score ≥ 75 gives
CONFIRMED_NO_MATCH citing the top 3 reasons, a score in [65, 75) gives
NOT_LIKELY citing the top 2 reasons, and a lower score continues normal
processing; and through `detailed_filter` an UNSUPPORTED-visa analysis
yields the CONFIRMED_NO_MATCH response with `match = False` and the
"visa support" reason. -/
theorem C6_visa_and_red_flag_gate :
    (∀ red : RedFlags, checkVisaAndRedFlags VisaSupport.unsupported red =
      (some JobStatus.confirmedNoMatch, "Job does not provide visa support"))
    ∧ containsStr "Job does not provide visa support" "visa support" = true
    ∧ (∀ (visa : VisaSupport) (red : RedFlags), visa ≠ VisaSupport.unsupported →
        red.score.getD 0 ≥ 75 →
        checkVisaAndRedFlags visa red = (some JobStatus.confirmedNoMatch,
          "High risk: " ++ joinSep "; " ((red.reasons.getD []).take 3)))
    ∧ (∀ (visa : VisaSupport) (red : RedFlags), visa ≠ VisaSupport.unsupported →
        ¬ red.score.getD 0 ≥ 75 → red.score.getD 0 ≥ 65 →
        checkVisaAndRedFlags visa red = (some JobStatus.notLikely,
          "Medium-high risk: " ++ joinSep "; " ((red.reasons.getD []).take 2)))
    ∧ (∀ (visa : VisaSupport) (red : RedFlags), visa ≠ VisaSupport.unsupported →
        ¬ red.score.getD 0 ≥ 75 → ¬ red.score.getD 0 ≥ 65 →
        checkVisaAndRedFlags visa red = (none, ""))
    ∧ (∀ (env : DetailedEnv) (now : Rat) (job : JobDetailedInfo) (st : CacheState)
        (a : JobAnalysisInfo) (ts : Rat),
      (∀ c, (getFilterResult now (setJobInfo st job.jobId job) job.jobId).1 = some c →
        c.filterType ≠ FilterType.detailed) →
      (shouldSkipJob env job).1 = false →
      (shouldSkipJob env job).2.2 ≠ none →
      env.matchTitle job.title = Except.ok ts →
      getJobAnalysis st job.jobId = some a →
      a.visaSupport = VisaSupport.unsupported →
      detailedFilter env now job st = Except.ok (visaNoMatchResponse ts now,
        setFilterResult (getFilterResult now (setJobInfo st job.jobId job) job.jobId).2
          job.jobId (visaNoMatchResponse ts now))
      ∧ (visaNoMatchResponse ts now).status = JobStatus.confirmedNoMatch
      ∧ (visaNoMatchResponse ts now).matched = some false
      ∧ (visaNoMatchResponse ts now).reasons = ["Job does not provide visa support"]) := by
  refine ⟨?_, by decide, ?_, ?_, ?_, ?_⟩
  · intro red
    simp [checkVisaAndRedFlags]
  · intro visa red hv h75
    simp [checkVisaAndRedFlags, hv, h75]
  · intro visa red hv h75 h65
    simp [checkVisaAndRedFlags, hv, h75, h65]
  · intro visa red hv h75 h65
    simp [checkVisaAndRedFlags, hv, h75, h65]
  · intro env now job st a ts hcache hskip hlang htitle hana hvisa
    refine ⟨?_, rfl, rfl, rfl⟩
    rw [detailedFilter_cache_bypass env now job st hcache,
        detailedRest_no_skip env now job _ hskip hlang, htitle]
    have hana₂ : getJobAnalysis
        ((getFilterResult now (setJobInfo st job.jobId job) job.jobId).2) job.jobId
        = some a := by
      unfold getJobAnalysis at hana ⊢
      rw [getFilterResult_snd_analysis]
      exact hana
    simp only [detailedTryBody, hana₂, hvisa]
    simp [checkVisaAndRedFlags, visaNoMatchResponse]

/-- **C6 witness**: a cached UNSUPPORTED-visa analysis for `job-1`
produces the CONFIRMED_NO_MATCH / "visa support" response through the
whole pipeline. -/
theorem C6_visa_and_red_flag_gate_witness :
    detailedFilter envBase 0 jobX stVisaAnalysis = Except.ok
      (visaNoMatchResponse 2 0,
       setFilterResult
         (getFilterResult 0 (setJobInfo stVisaAnalysis jobX.jobId jobX) jobX.jobId).2
         jobX.jobId (visaNoMatchResponse 2 0)) := by
  refine (C6_visa_and_red_flag_gate.2.2.2.2.2 envBase 0 jobX stVisaAnalysis
    analysisNoVisa 2 ?_ (by decide) (by decide) (by decide) (by decide) (by decide)).1
  intro c h
  rw [show (getFilterResult 0 (setJobInfo stVisaAnalysis jobX.jobId jobX) jobX.jobId).1
      = none from by decide] at h
  cases h

/-- **C9 counterexample**: calling `finalize_application` for an
existing session (job info cached, COVER_LETTER phase) whose task still
has `cover_letter_data = None` raises — the line
`task.cover_letter_data.customized = content` dereferences `None` — so
an exception does reach the caller, contradicting the claimed silent
log-only behaviour.  (No history entry is written.) -/
theorem C9_counterexample_attribute_error :
    (finalizeApplication finEnv0 stC9 "sess-1" "new content").result =
      Except.error (PyError.attributeError "NoneType object has no attribute customized")
    ∧ (finalizeApplication finEnv0 stC9 "sess-1" "new content").historyWritten = false := by
  decide

/-- **C9 (amended)**: if `finalize_application` is called for an existing
session whose task has `cover_letter_data` still null, an exception is
raised to the caller (AttributeError in COVER_LETTER phase, ValueError
otherwise, or the missing-job-info ValueError) and no job-history entry
is written; the silent log-an-error-without-raising path occurs instead
when `resume_data` is null while `cover_letter_data` is present. -/
theorem C9_finalize_missing_data :
    (∀ (env : FinalizeEnv) (st : AppState) (sid content : String) (task : ActiveTask),
      alookup st.activeTasks sid = some task →
      task.coverLetterData = none →
      (∃ pe, (finalizeApplication env st sid content).result = Except.error pe)
      ∧ (finalizeApplication env st sid content).historyWritten = false)
    ∧ (∀ (env : FinalizeEnv) (st : AppState) (sid content : String)
        (task : ActiveTask) (cl : CustomizedContent) (ji : JobDetailedInfo),
      alookup st.activeTasks sid = some task →
      getJobInfo st.cache task.jobId = some ji →
      task.currentPhase = ApplicationPhase.coverLetter →
      task.coverLetterData = some cl →
      task.resumeData = none →
      (finalizeApplication env st sid content).result = Except.ok ()
      ∧ (finalizeApplication env st sid content).historyWritten = false) := by
  constructor
  · intro env st sid content task htask hcover
    rcases hji : getJobInfo st.cache task.jobId with _ | ji
    · constructor
      · exact ⟨PyError.valueError ("No job info found for job " ++ task.jobId),
          by simp [finalizeApplication, htask, hji]⟩
      · simp [finalizeApplication, htask, hji]
    · by_cases hph : task.currentPhase = ApplicationPhase.coverLetter
      · constructor
        · exact ⟨PyError.attributeError "NoneType object has no attribute customized",
            by simp [finalizeApplication, htask, hji, hph, hcover]⟩
        · simp [finalizeApplication, htask, hji, hph, hcover]
      · constructor
        · exact ⟨PyError.valueError "Can only finalize from cover letter phase",
            by simp [finalizeApplication, htask, hji, hph]⟩
        · simp [finalizeApplication, htask, hji, hph]
  · intro env st sid content task cl ji htask hji hph hcover hres
    constructor
    · simp [finalizeApplication, htask, hji, hph, hcover, hres]
    · simp [finalizeApplication, htask, hji, hph, hcover, hres]

/-- **C9 witness**: the amended behaviour at the concrete states — the
null-`cover_letter_data` task raises with no history write; the
null-`resume_data` task silently returns with no history write. -/
theorem C9_finalize_missing_data_witness :
    ((∃ pe, (finalizeApplication finEnv0 stC9 "sess-1" "x").result = Except.error pe)
     ∧ (finalizeApplication finEnv0 stC9 "sess-1" "x").historyWritten = false)
    ∧ ((finalizeApplication finEnv0 stC9b "sess-1" "x").result = Except.ok ()
     ∧ (finalizeApplication finEnv0 stC9b "sess-1" "x").historyWritten = false) :=
  ⟨C9_finalize_missing_data.1 finEnv0 stC9 "sess-1" "x" taskNoCoverData
     (by decide) (by decide),
   C9_finalize_missing_data.2 finEnv0 stC9b "sess-1" "x" taskNoResumeData
     { original := "tmpl", customized := "body" } jobX
     (by decide) (by decide) (by decide) (by decide) (by decide)⟩

/-- Inserting never shrinks an association list. -/
theorem length_le_ainsert {K V : Type} [DecidableEq K]
    (l : List (K × V)) (k : K) (v : V) : l.length ≤ (ainsert l k v).length := by
  induction l with
  | nil => simp [ainsert]
  | cons hd tl ih =>
    obtain ⟨k₀, v₀⟩ := hd
    by_cases h : k₀ = k
    · simp [ainsert, h]
    · simp only [ainsert, h, if_false, List.length_cons]
      omega

/-- Folding inserts never shrinks an association list. -/
theorem length_le_foldl_ainsert {K V : Type} [DecidableEq K]
    (xs : List (K × V)) (l : List (K × V)) :
    l.length ≤ (xs.foldl (fun c pv => ainsert c pv.1 pv.2) l).length := by
  induction xs generalizing l with
  | nil => simp
  | cons hd tl ih =>
    exact le_trans (length_le_ainsert l hd.1 hd.2) (ih (ainsert l hd.1 hd.2))

set_option maxRecDepth 40000 in
/-- **C8 counterexample**: with the cache already holding exactly
`TITLE_MATCH_SETTINGS['cache_size'] = 1000` entries, one `match_title`
call on a fresh title leaves 1001 entries in the cache — the pairwise
similarity computation stores its results without any capacity check, so
the cache does grow past the configured capacity. -/
theorem C8_counterexample_capacity_exceeded :
    fullTitleCache.length = TITLE_MATCH_cacheSize
    ∧ (matchTitleAdv titleEnv0 fullTitleCache "Fresh Title").2.length = 1001
    ∧ TITLE_MATCH_cacheSize = 1000 := by
  refine ⟨by decide, by decide, rfl⟩

/-- **C8 (amended)**: `match_title` never evicts (the cache never
shrinks), a cache hit leaves the cache unchanged, and the configured
capacity only guards the final best-pair store: on a miss, every
pairwise-similarity result is written to the cache unconditionally, and
when the cache is at or above capacity after those writes the result
cache is exactly the pairwise-updated cache — which can exceed the
configured capacity, as the counterexample shows. -/
theorem C8_title_cache_capacity :
    (∀ (env : TitleEnv) (cache : TCache) (t : String),
      cache.length ≤ (matchTitleAdv env cache t).2.length)
    ∧ (∀ (env : TitleEnv) (cache : TCache) (t : String),
      (findBestMatchFromCache cache t env.preferredTitles).2 ≠ none →
      (matchTitleAdv env cache t).2 = cache)
    ∧ (∀ (env : TitleEnv) (cache : TCache) (t : String),
      (findBestMatchFromCache cache t env.preferredTitles).2 = none →
      TITLE_MATCH_cacheSize ≤ (calcPairwiseSims (fun a b => (a, some b)) tkSwap id
          ratTruthy env.adjSim [t] env.preferredTitles cache).2.length →
      (matchTitleAdv env cache t).2 =
        (calcPairwiseSims (fun a b => (a, some b)) tkSwap id ratTruthy
          env.adjSim [t] env.preferredTitles cache).2) := by
  refine ⟨?_, ?_, ?_⟩
  · intro env cache t
    rcases h : (findBestMatchFromCache cache t env.preferredTitles).2 with _ | b
    · have hcp : cache.length ≤ (calcPairwiseSims (fun a b => (a, some b)) tkSwap id
          ratTruthy env.adjSim [t] env.preferredTitles cache).2.length := by
        unfold calcPairwiseSims
        exact length_le_foldl_ainsert _ _
      simp only [matchTitleAdv, h]
      by_cases hlt : (calcPairwiseSims (fun a b => (a, some b)) tkSwap id
          ratTruthy env.adjSim [t] env.preferredTitles cache).2.length
            < TITLE_MATCH_cacheSize
      · simp only [hlt, if_true]
        exact le_trans hcp (le_trans (length_le_ainsert _ _ _) (le_refl _))
      · simp only [hlt, if_false]
        exact hcp
    · simp [matchTitleAdv, h]
  · intro env cache t h
    rcases hb : (findBestMatchFromCache cache t env.preferredTitles).2 with _ | b
    · exact absurd hb h
    · simp [matchTitleAdv, hb]
  · intro env cache t h hcap
    simp only [matchTitleAdv, h]
    simp only [Nat.not_lt.mpr hcap, if_false]

/-- Membership after the set-update fold of `requiredSkillsOf`. -/
theorem mem_foldl_pushNew (skills acc : List String) (r : String)
    (h : r ∈ skills.foldl (fun a s => if a.contains s then a else a ++ [s]) acc) :
    r ∈ acc ∨ r ∈ skills := by
  induction skills generalizing acc with
  | nil => exact Or.inl h
  | cons s rest ih =>
    rcases ih _ h with hacc | hrest
    · dsimp only at hacc
      by_cases hc : acc.contains s
      · rw [if_pos hc] at hacc
        exact Or.inl hacc
      · rw [if_neg hc] at hacc
        rcases List.mem_append.mp hacc with h' | h'
        · exact Or.inl h'
        · exact Or.inr (by simp [List.mem_singleton.mp h'])
    · exact Or.inr (List.mem_cons_of_mem _ hrest)

/-- Membership in the category fold of `requiredSkillsOf`: every element
either comes from the accumulator or from some non-soft-skills
category. -/
theorem mem_requiredSkillsOf_fold (js : JobSkills) (cats : List String)
    (acc : List String) (r : String)
    (h : r ∈ cats.foldl (fun acc cat =>
      if cat ≠ "soft skills" then
        match alookup js.cats cat with
        | some skills =>
          if skills ≠ [] then
            skills.foldl (fun a s => if a.contains s then a else a ++ [s]) acc
          else acc
        | none => acc
      else acc) acc) :
    r ∈ acc ∨ ∃ cat, cat ∈ cats ∧ cat ≠ "soft skills"
      ∧ r ∈ (alookup js.cats cat).getD [] := by
  induction cats generalizing acc with
  | nil => exact Or.inl h
  | cons c rest ih =>
    rcases ih _ h with hstep | ⟨cat, hmem, hne, hin⟩
    · dsimp only at hstep
      by_cases hc : c = "soft skills"
      · rw [if_neg (not_not_intro hc)] at hstep
        exact Or.inl hstep
      · rw [if_pos hc] at hstep
        rcases hlk : alookup js.cats c with _ | skills
        · simp only [hlk] at hstep
          exact Or.inl hstep
        · simp only [hlk] at hstep
          by_cases hne' : skills = []
          · rw [if_neg (not_not_intro hne')] at hstep
            exact Or.inl hstep
          · rw [if_pos hne'] at hstep
            rcases mem_foldl_pushNew skills acc r hstep with h' | h'
            · exact Or.inl h'
            · exact Or.inr ⟨c, by simp, hc, by simp [hlk, h']⟩
    · exact Or.inr ⟨cat, List.mem_cons_of_mem _ hmem, hne, hin⟩

/-- `skillMatchOutcome` reads the job skills only through the `languages`
sub-map and the required-skill set. -/
theorem skillMatchOutcome_congr (env : SkillEnv) (cache : SCache)
    (js js' : JobSkills) (hl : js.languages = js'.languages)
    (hr : requiredSkillsOf js = requiredSkillsOf js') :
    skillMatchOutcome env cache js = skillMatchOutcome env cache js' := by
  unfold skillMatchOutcome langMissingOf
  rw [hl, hr]

/-- **C10** (soft-skills exclusion): the `'soft skills'` category never
contributes to the required-skill set — replacing it arbitrarily changes
neither the outcome of `evaluate_skills_match` (and hence neither the
reported missing skills) nor the match ratio — and every required skill
comes from one of the four technical categories. -/
theorem C10_soft_skills_excluded :
    (∀ (js : JobSkills) (l : List String),
      requiredSkillsOf { js with cats := ainsert js.cats "soft skills" l }
        = requiredSkillsOf js)
    ∧ (∀ (env : SkillEnv) (cache : SCache) (js : JobSkills) (l : List String),
      evaluateSkillsMatch env cache { js with cats := ainsert js.cats "soft skills" l }
        = evaluateSkillsMatch env cache js
      ∧ matchFrac env cache { js with cats := ainsert js.cats "soft skills" l }
        = matchFrac env cache js)
    ∧ (∀ (js : JobSkills) (r : String), r ∈ requiredSkillsOf js →
      ∃ cat, cat ∈ ["programming languages", "frameworks", "mobile development",
        "other technical"] ∧ r ∈ (alookup js.cats cat).getD []) := by
  have hreq : ∀ (js : JobSkills) (l : List String),
      requiredSkillsOf { js with cats := ainsert js.cats "soft skills" l }
        = requiredSkillsOf js := by
    intro js l
    have h1 : alookup (ainsert js.cats "soft skills" l) "programming languages"
        = alookup js.cats "programming languages" :=
      alookup_ainsert_ne _ _ _ _ (by decide)
    have h2 : alookup (ainsert js.cats "soft skills" l) "frameworks"
        = alookup js.cats "frameworks" :=
      alookup_ainsert_ne _ _ _ _ (by decide)
    have h3 : alookup (ainsert js.cats "soft skills" l) "mobile development"
        = alookup js.cats "mobile development" :=
      alookup_ainsert_ne _ _ _ _ (by decide)
    have h4 : alookup (ainsert js.cats "soft skills" l) "other technical"
        = alookup js.cats "other technical" :=
      alookup_ainsert_ne _ _ _ _ (by decide)
    simp [requiredSkillsOf, skillCategories, h1, h2, h3, h4]
  refine ⟨hreq, ?_, ?_⟩
  · intro env cache js l
    have hout : skillMatchOutcome env cache
        { js with cats := ainsert js.cats "soft skills" l }
        = skillMatchOutcome env cache js :=
      skillMatchOutcome_congr env cache _ _ rfl (hreq js l)
    constructor
    · unfold evaluateSkillsMatch
      rw [hout]
    · unfold matchFrac
      rw [hout]
  · intro js r h
    have h' := mem_requiredSkillsOf_fold js skillCategories [] r h
    rcases h' with h' | ⟨cat, hmem, hne, hin⟩
    · cases h'
    · refine ⟨cat, ?_, hin⟩
      unfold skillCategories at hmem
      simp only [List.mem_cons, List.not_mem_nil, or_false] at hmem
      rcases hmem with h | h | h | h | h
      · simp [h]
      · simp [h]
      · simp [h]
      · simp [h]
      · exact absurd h hne

/-- **C10 witness**: "Java" required by `jsTwoReqs` comes from a
technical category; concretely the required set ignores a soft-skills
entry. -/
theorem C10_soft_skills_excluded_witness :
    (∃ cat, cat ∈ ["programming languages", "frameworks", "mobile development",
      "other technical"] ∧ "Java" ∈ (alookup jsTwoReqs.cats cat).getD [])
    ∧ requiredSkillsOf { jsTwoReqs with
        cats := ainsert jsTwoReqs.cats "soft skills" ["Communication"] }
      = requiredSkillsOf jsTwoReqs :=
  ⟨C10_soft_skills_excluded.2.2 jsTwoReqs "Java" (by decide),
   C10_soft_skills_excluded.1 jsTwoReqs ["Communication"]⟩

/-! ### Skill-matcher characterisation (towards C7) -/

theorem alookup_map_self {K V : Type} [DecidableEq K]
    (l : List K) (g : K → V) (q : K) :
    alookup (l.map (fun p => (p, g p))) q = if q ∈ l then some (g q) else none := by
  induction l with
  | nil => simp [alookup]
  | cons p rest ih =>
    by_cases h : p = q
    · subst h
      simp [alookup]
    · simp only [List.map_cons, alookup, h, if_false, ih, List.mem_cons]
      by_cases hq : q ∈ rest
      · simp [hq, Ne.symm h]
      · simp [hq, Ne.symm h]

theorem mem_foldl_pushNew_of_mem_acc (skills acc : List String) (r : String)
    (h : r ∈ acc) :
    r ∈ skills.foldl (fun a s => if a.contains s then a else a ++ [s]) acc := by
  induction skills generalizing acc with
  | nil => exact h
  | cons s rest ih =>
    simp only [List.foldl_cons]
    by_cases hc : acc.contains s
    · rw [if_pos hc]
      exact ih _ h
    · rw [if_neg hc]
      exact ih _ (List.mem_append_left _ h)

theorem mem_foldl_pushNew_of_mem (skills acc : List String) (r : String)
    (h : r ∈ skills) :
    r ∈ skills.foldl (fun a s => if a.contains s then a else a ++ [s]) acc := by
  induction skills generalizing acc with
  | nil => cases h
  | cons s rest ih =>
    simp only [List.foldl_cons]
    rcases List.mem_cons.mp h with h' | h'
    · subst h'
      by_cases hc : acc.contains r
      · rw [if_pos hc]
        exact mem_foldl_pushNew_of_mem_acc _ _ _ (by simpa using hc)
      · rw [if_neg hc]
        exact mem_foldl_pushNew_of_mem_acc _ _ _ (by simp)
    · by_cases hc : acc.contains s
      · rw [if_pos hc]
        exact ih _ h'
      · rw [if_neg hc]
        exact ih _ h'

theorem mem_dedupList (l : List String) (x : String) :
    x ∈ dedupList l ↔ x ∈ l := by
  constructor
  · intro h
    rcases mem_foldl_pushNew l [] x h with h' | h'
    · cases h'
    · exact h'
  · intro h
    exact mem_foldl_pushNew_of_mem l [] x h

theorem alookup_some_mem {K V : Type} [DecidableEq K]
    (l : List (K × V)) (k : K) (v : V) (h : alookup l k = some v) : (k, v) ∈ l := by
  induction l with
  | nil => cases h
  | cons hd tl ih =>
    obtain ⟨k₀, v₀⟩ := hd
    by_cases hk : k₀ = k
    · subst hk
      have hv : v₀ = v := by simpa [alookup] using h
      subst hv
      exact List.mem_cons_self _ _
    · rw [alookup, if_neg hk] at h
      exact List.mem_cons_of_mem _ (ih h)

theorem mem_alookup_of_nodup {K V : Type} [DecidableEq K]
    (l : List (K × V)) (k : K) (v : V)
    (hnd : (l.map Prod.fst).Nodup) (h : (k, v) ∈ l) : alookup l k = some v := by
  induction l with
  | nil => cases h
  | cons hd tl ih =>
    obtain ⟨k₀, v₀⟩ := hd
    simp only [List.map_cons, List.nodup_cons, List.mem_map] at hnd
    rcases List.mem_cons.mp h with h' | h'
    · have hk : k₀ = k := (congrArg Prod.fst h').symm
      have hv : v₀ = v := (congrArg Prod.snd h').symm
      subst hk
      simp [alookup, hv]
    · have hne : k₀ ≠ k := by
        intro he
        subst he
        exact hnd.1 ⟨(k₀, v), h', rfl⟩
      rw [alookup, if_neg hne]
      exact ih hnd.2 h'

theorem mem_ainsert {K V : Type} [DecidableEq K]
    (l : List (K × V)) (k : K) (v : V) (x : K × V) (h : x ∈ ainsert l k v) :
    x ∈ l ∨ x = (k, v) := by
  induction l with
  | nil => simpa [ainsert] using h
  | cons hd tl ih =>
    obtain ⟨k₀, v₀⟩ := hd
    by_cases hk : k₀ = k
    · subst hk
      rw [ainsert, if_pos rfl] at h
      rcases List.mem_cons.mp h with h' | h'
      · exact Or.inr h'
      · exact Or.inl (List.mem_cons_of_mem _ h')
    · rw [ainsert, if_neg hk] at h
      rcases List.mem_cons.mp h with h' | h'
      · exact Or.inl (by simp [h'])
      · rcases ih h' with h'' | h''
        · exact Or.inl (List.mem_cons_of_mem _ h'')
        · exact Or.inr h''

theorem ainsert_keys_nodup {K V : Type} [DecidableEq K]
    (l : List (K × V)) (k : K) (v : V) (hnd : (l.map Prod.fst).Nodup) :
    ((ainsert l k v).map Prod.fst).Nodup := by
  induction l with
  | nil => simp [ainsert]
  | cons hd tl ih =>
    obtain ⟨k₀, v₀⟩ := hd
    simp only [List.map_cons, List.nodup_cons, List.mem_map] at hnd
    by_cases hk : k₀ = k
    · subst hk
      have he : ainsert ((k₀, v₀) :: tl) k₀ v = (k₀, v) :: tl := by simp [ainsert]
      rw [he]
      simp only [List.map_cons, List.nodup_cons, List.mem_map]
      exact ⟨hnd.1, hnd.2⟩
    · simp only [ainsert, if_neg hk, List.map_cons, List.nodup_cons, List.mem_map]
      refine ⟨?_, ih hnd.2⟩
      rintro ⟨⟨k₁, v₁⟩, hmem, hfst⟩
      rcases mem_ainsert tl k v _ hmem with h' | h'
      · exact hnd.1 ⟨(k₁, v₁), h', hfst⟩
      · have : k₁ = k := congrArg Prod.fst h'
        exact hk (by rw [← hfst, this])

theorem mkFuzzVal_symm (env : SkillEnv) (Hf : ∀ a b, env.fuzz a b = env.fuzz b a)
    (a b : String) : mkFuzzVal env b a = mkFuzzVal env a b := by
  unfold mkFuzzVal
  rw [Hf b a]

/-- On a cache satisfying the fuzzy value invariant, the symmetric lookup
either misses or returns precisely the fuzzy value of the looked-up key
(using symmetry of the fuzzy scorer for reversed hits). -/
theorem getSym_fuzzShape (env : SkillEnv) (cache : SCache)
    (Hf : ∀ a b, env.fuzz a b = env.fuzz b a) (hs : fuzzValShape env cache)
    (a b : String) :
    getFromCacheSymmetric CacheVal.truthy Prod.swap cache (a, b) = none ∨
    getFromCacheSymmetric CacheVal.truthy Prod.swap cache (a, b) =
      some (mkFuzzVal env a b) := by
  rcases h1 : alookup cache (a, b) with _ | v
  · rcases h2 : alookup cache (b, a) with _ | w
    · left
      simp [getFromCacheSymmetric, Prod.swap, h1, h2]
    · right
      have hw := hs b a w h2
      simp [getFromCacheSymmetric, Prod.swap, h1, h2, hw, mkFuzzVal_symm env Hf a b]
  · right
    have hv := hs a b v h1
    simp [getFromCacheSymmetric, Prod.swap, h1, hv, CacheVal.truthy, mkFuzzVal]

/-- One fuzzy iteration: the `all_matches` entry becomes the fuzzy triple
of the pair and the cache stays in shape, growing at most by the
lower-cased key. -/
theorem fuzzyCell_spec (env : SkillEnv) (am : AllMatches) (cache : SCache)
    (req cand : String)
    (Hf : ∀ a b, env.fuzz a b = env.fuzz b a) (hs : fuzzValShape env cache) :
    ∃ cache', fuzzyCell env (am, cache) req cand =
        some (ainsert am (req, cand) (fzTriple env req cand), cache')
      ∧ fuzzValShape env cache'
      ∧ (∀ k : String × String, (alookup cache' k).isSome →
          (alookup cache k).isSome ∨ k = (pyLower cand, pyLower req)) := by
  rcases getSym_fuzzShape env cache Hf hs (pyLower cand) (pyLower req) with hg | hg
  · refine ⟨ainsert cache (pyLower cand, pyLower req)
      (mkFuzzVal env (pyLower cand) (pyLower req)), ?_, ?_, ?_⟩
    · by_cases hth : env.fuzz (pyLower cand) (pyLower req) ≥ fuzzyThreshold
      · simp [fuzzyCell, hg, hth, fzTriple, mkFuzzVal]
      · simp [fuzzyCell, hg, hth, fzTriple, mkFuzzVal]
    · intro a b v hv
      rw [alookup_ainsert] at hv
      by_cases hk : (pyLower cand, pyLower req) = (a, b)
      · injection hk with hk1 hk2
        subst hk1
        subst hk2
        rw [if_pos rfl] at hv
        exact (Option.some.inj hv).symm
      · rw [if_neg hk] at hv
        exact hs a b v hv
    · intro k hk
      rw [alookup_ainsert] at hk
      by_cases he : (pyLower cand, pyLower req) = k
      · exact Or.inr he.symm
      · rw [if_neg he] at hk
        exact Or.inl hk
  · refine ⟨cache, ?_, hs, fun k hk => Or.inl hk⟩
    by_cases hth : env.fuzz (pyLower cand) (pyLower req) ≥ fuzzyThreshold
    · simp [fuzzyCell, hg, mkFuzzVal, hth, fzTriple]
    · simp [fuzzyCell, hg, mkFuzzVal, hth, fzTriple]

/-- The inner fuzzy loop over the candidate list. -/
theorem fuzzyRow_spec (env : SkillEnv) (req : String) (cands0 : List String)
    (Hf : ∀ a b, env.fuzz a b = env.fuzz b a) :
    ∀ (am : AllMatches) (cache : SCache), fuzzValShape env cache →
    ∃ am' cache', fuzzyRow env req cands0 (am, cache) = some (am', cache')
      ∧ (∀ p : String × String, alookup am' p =
          if p.1 = req ∧ p.2 ∈ cands0 then some (fzTriple env req p.2)
          else alookup am p)
      ∧ fuzzValShape env cache'
      ∧ (∀ k : String × String, (alookup cache' k).isSome →
          (alookup cache k).isSome ∨ ∃ c ∈ cands0, k = (pyLower c, pyLower req))
      ∧ ((am.map Prod.fst).Nodup → (am'.map Prod.fst).Nodup) := by
  induction cands0 with
  | nil =>
    intro am cache hs
    refine ⟨am, cache, rfl, ?_, hs, fun k hk => Or.inl hk, fun h => h⟩
    intro p
    simp
  | cons cand rest ih =>
    intro am cache hs
    obtain ⟨cache₁, hcell, hs₁, hdom₁⟩ := fuzzyCell_spec env am cache req cand Hf hs
    obtain ⟨am', cache', hrow, ham, hs', hdom', hnd⟩ :=
      ih (ainsert am (req, cand) (fzTriple env req cand)) cache₁ hs₁
    refine ⟨am', cache', ?_, ?_, hs', ?_, ?_⟩
    · simp only [fuzzyRow, hcell, hrow]
    · intro p
      rw [ham p, alookup_ainsert]
      by_cases h1 : p.1 = req ∧ p.2 ∈ rest
      · rw [if_pos h1, if_pos ⟨h1.1, List.mem_cons_of_mem _ h1.2⟩]
      · rw [if_neg h1]
        by_cases h2 : (req, cand) = p
        · have hp1 : p.1 = req := (congrArg Prod.fst h2).symm
          have hp2 : p.2 = cand := (congrArg Prod.snd h2).symm
          rw [if_pos h2, if_pos ⟨hp1, by rw [hp2]; exact List.mem_cons_self _ _⟩, hp2]
        · rw [if_neg h2, if_neg ?_]
          intro hcon
          rcases List.mem_cons.mp hcon.2 with h' | h'
          · exact h2 (by rw [← hcon.1, ← h'])
          · exact h1 ⟨hcon.1, h'⟩
    · intro k hk
      rcases hdom' k hk with h' | ⟨c, hc, he⟩
      · rcases hdom₁ k h' with h'' | h''
        · exact Or.inl h''
        · exact Or.inr ⟨cand, List.mem_cons_self _ _, h''⟩
      · exact Or.inr ⟨c, List.mem_cons_of_mem _ hc, he⟩
    · intro h
      exact hnd (ainsert_keys_nodup _ _ _ h)

/-- The outer fuzzy loop over the required skills. -/
theorem fuzzyPass_spec (env : SkillEnv) (cands : List String) (reqs : List String)
    (Hf : ∀ a b, env.fuzz a b = env.fuzz b a) :
    ∀ (am : AllMatches) (cache : SCache), fuzzValShape env cache →
    ∃ am' cache', fuzzyPass env cands reqs (am, cache) = some (am', cache')
      ∧ (∀ p : String × String, alookup am' p =
          if p.1 ∈ reqs ∧ p.2 ∈ cands then some (fzTriple env p.1 p.2)
          else alookup am p)
      ∧ fuzzValShape env cache'
      ∧ (∀ k : String × String, (alookup cache' k).isSome →
          (alookup cache k).isSome ∨
            ∃ r ∈ reqs, ∃ c ∈ cands, k = (pyLower c, pyLower r))
      ∧ ((am.map Prod.fst).Nodup → (am'.map Prod.fst).Nodup) := by
  induction reqs with
  | nil =>
    intro am cache hs
    refine ⟨am, cache, rfl, ?_, hs, fun k hk => Or.inl hk, fun h => h⟩
    intro p
    simp
  | cons req rest ih =>
    intro am cache hs
    obtain ⟨am₁, cache₁, hrow, ham₁, hs₁, hdom₁, hnd₁⟩ :=
      fuzzyRow_spec env req cands Hf am cache hs
    obtain ⟨am', cache', hpass, ham', hs', hdom', hnd'⟩ := ih am₁ cache₁ hs₁
    refine ⟨am', cache', ?_, ?_, hs', ?_, ?_⟩
    · simp only [fuzzyPass, hrow, hpass]
    · intro p
      rw [ham' p, ham₁ p]
      by_cases h1 : p.1 ∈ rest ∧ p.2 ∈ cands
      · rw [if_pos h1, if_pos ⟨List.mem_cons_of_mem _ h1.1, h1.2⟩]
      · rw [if_neg h1]
        by_cases h2 : p.1 = req ∧ p.2 ∈ cands
        · rw [if_pos h2, if_pos ⟨by rw [h2.1]; exact List.mem_cons_self _ _, h2.2⟩, h2.1]
        · rw [if_neg h2, if_neg ?_]
          intro hcon
          rcases List.mem_cons.mp hcon.1 with h' | h'
          · exact h2 ⟨h', hcon.2⟩
          · exact h1 ⟨h', hcon.2⟩
    · intro k hk
      rcases hdom' k hk with h' | ⟨r, hr, c, hc, he⟩
      · rcases hdom₁ k h' with h'' | ⟨c, hc, he⟩
        · exact Or.inl h''
        · exact Or.inr ⟨req, List.mem_cons_self _ _, c, hc, he⟩
      · exact Or.inr ⟨r, List.mem_cons_of_mem _ hr, c, hc, he⟩
    · intro h
      exact hnd' (hnd₁ h)

theorem fzTriple_fst (env : SkillEnv) (req cand : String) :
    (fzTriple env req cand).1 =
      decide (env.fuzz (pyLower cand) (pyLower req) ≥ fuzzyThreshold) := by
  unfold fzTriple
  by_cases h : env.fuzz (pyLower cand) (pyLower req) ≥ fuzzyThreshold
  · simp [h]
  · simp [h]

theorem sTriple_fst (env : SkillEnv) (req cand : String)
    (hfz : ¬ env.fuzz (pyLower cand) (pyLower req) ≥ fuzzyThreshold) :
    (sTriple env req cand).1 = decide (env.sem req cand ≥ embeddingThreshold) := by
  unfold sTriple
  by_cases h : env.sem req cand ≥ embeddingThreshold
  · simp [h]
  · by_cases h2 : env.sem req cand * 100 > (fzTriple env req cand).2.2
    · simp [h, h2]
    · simp only [h, h2, if_false, fzTriple, hfz]
      split <;> rfl

theorem ainsert_self_eq {K V : Type} [DecidableEq K]
    (l : List (K × V)) (k : K) (v : V) (h : alookup l k = some v) :
    ainsert l k v = l := by
  induction l with
  | nil => cases h
  | cons hd tl ih =>
    obtain ⟨k₀, v₀⟩ := hd
    by_cases hk : k₀ = k
    · subst hk
      have hv : v₀ = v := by simpa [alookup] using h
      subst hv
      simp [ainsert]
    · rw [alookup, if_neg hk] at h
      rw [ainsert, if_neg hk, ih h]

theorem lfilter_congr {α : Type} (l : List α) (p q : α → Bool)
    (h : ∀ x ∈ l, p x = q x) : l.filter p = l.filter q := by
  induction l with
  | nil => rfl
  | cons a rest ih =>
    simp only [List.filter_cons, h a (List.mem_cons_self a rest)]
    rw [ih (fun x hx => h x (List.mem_cons_of_mem _ hx))]

theorem lany_congr {α : Type} (l : List α) (p q : α → Bool)
    (h : ∀ x ∈ l, p x = q x) : l.any p = l.any q := by
  induction l with
  | nil => rfl
  | cons a rest ih =>
    simp only [List.any_cons, h a (List.mem_cons_self a rest)]
    rw [ih (fun x hx => h x (List.mem_cons_of_mem _ hx))]

theorem lcountP_congr {α : Type} (l : List α) (p q : α → Bool)
    (h : ∀ x ∈ l, p x = q x) : l.countP p = l.countP q := by
  induction l with
  | nil => rfl
  | cons a rest ih =>
    simp only [List.countP_cons, h a (List.mem_cons_self a rest)]
    rw [ih (fun x hx => h x (List.mem_cons_of_mem _ hx))]

theorem lcountP_mono {α : Type} (l : List α) (p q : α → Bool)
    (h : ∀ x ∈ l, p x = true → q x = true) : l.countP p ≤ l.countP q := by
  induction l with
  | nil => exact le_refl _
  | cons a rest ih =>
    have hrest := ih (fun x hx => h x (List.mem_cons_of_mem _ hx))
    simp only [List.countP_cons]
    by_cases hp : p a = true
    · rw [if_pos hp, if_pos (h a (List.mem_cons_self a rest) hp)]
      omega
    · rw [if_neg hp]
      by_cases hq : q a = true
      · rw [if_pos hq]
        omega
      · rw [if_neg hq]
        omega

theorem mem_pairs_flatten (keys1 keys2 : List String) (p : String × String) :
    p ∈ (keys1.map (fun a => keys2.map (fun b => (a, b)))).flatten ↔
      p.1 ∈ keys1 ∧ p.2 ∈ keys2 := by
  obtain ⟨x, y⟩ := p
  simp only [List.mem_flatten, List.mem_map]
  constructor
  · rintro ⟨l, ⟨a, ha, rfl⟩, hmem⟩
    obtain ⟨b, hb, he⟩ := List.mem_map.mp hmem
    injection he with h1 h2
    subst h1
    subst h2
    exact ⟨ha, hb⟩
  · rintro ⟨hx, hy⟩
    exact ⟨keys2.map (fun b => (x, b)), ⟨x, hx, rfl⟩, List.mem_map.mpr ⟨y, hy, rfl⟩⟩

/-- When the first pass of `calculate_pairwise_similarities` misses for
every pair, everything is freshly computed and written to the cache. -/
theorem calcPairwiseSims_all_miss {K V : Type} [DecidableEq K]
    (mk : String → String → K) (swap : K → K) (toV : Rat → V)
    (truthy : V → Bool) (f : String → String → Rat)
    (keys1 keys2 : List String) (cache : List (K × V))
    (h : ∀ p ∈ (keys1.map (fun a => keys2.map (fun b => (a, b)))).flatten,
      getFromCacheSymmetric truthy swap cache (mk p.1 p.2) = none) :
    calcPairwiseSims mk swap toV truthy f keys1 keys2 cache =
      (((keys1.map (fun a => keys2.map (fun b => (a, b)))).flatten).map
        (fun p => (mk p.1 p.2, toV (f p.1 p.2))),
       (((keys1.map (fun a => keys2.map (fun b => (a, b)))).flatten).map
        (fun p => (mk p.1 p.2, toV (f p.1 p.2)))).foldl
          (fun c pv => ainsert c pv.1 pv.2) cache) := by
  unfold calcPairwiseSims
  have hcached : ((keys1.map (fun a => keys2.map (fun b => (a, b)))).flatten).filterMap
      (fun p => (getFromCacheSymmetric truthy swap cache (mk p.1 p.2)).map
        (fun v => (mk p.1 p.2, v))) = [] := by
    rw [List.filterMap_eq_nil_iff]
    intro p hp
    rw [h p hp]
    rfl
  have huncached : ((keys1.map (fun a => keys2.map (fun b => (a, b)))).flatten).filter
      (fun p => (getFromCacheSymmetric truthy swap cache (mk p.1 p.2)).isNone) =
      (keys1.map (fun a => keys2.map (fun b => (a, b)))).flatten := by
    rw [List.filter_eq_self]
    intro p hp
    rw [h p hp]
    rfl
  simp only [hcached, huncached]
  rfl

/-- After the fuzzy pass, every symmetric lookup of an
(original-casing requirement, resume-skill) pair misses: the cache only
holds lower-cased candidate-first keys, and `noLowerCollision` keeps the
two key families apart. -/
theorem getSym_miss_after_fuzzy (_env : SkillEnv) (reqs cands : List String)
    (cache : SCache) (Hc : noLowerCollision reqs cands)
    (hdom : ∀ k : String × String, (alookup cache k).isSome →
      ∃ r ∈ reqs, ∃ c ∈ cands, k = (pyLower c, pyLower r))
    (a b : String) (ha : a ∈ reqs) (hb : b ∈ cands) :
    getFromCacheSymmetric CacheVal.truthy Prod.swap cache (a, b) = none := by
  have h1 : alookup cache (a, b) = none := by
    rcases h : alookup cache (a, b) with _ | v
    · rfl
    · exfalso
      obtain ⟨r, _, c, hc, he⟩ := hdom (a, b) (by simp [h])
      injection he with he1 he2
      exact Hc a (List.mem_append_left _ ha) c hc he1
  have h2 : alookup cache (b, a) = none := by
    rcases h : alookup cache (b, a) with _ | v
    · rfl
    · exfalso
      obtain ⟨r, _, c, hc, he⟩ := hdom (b, a) (by simp [h])
      injection he with he1 he2
      exact Hc b (List.mem_append_right _ hb) c hc he1
  simp [getFromCacheSymmetric, Prod.swap, h1, h2]

/-- `reqs_needing_semantic` is exactly the requirements with no
fuzzy-threshold candidate. -/
theorem reqsNeedingSemantic_eq (env : SkillEnv) (cands reqs : List String)
    (am : AllMatches)
    (ham : ∀ p : String × String, alookup am p =
      if p.1 ∈ reqs ∧ p.2 ∈ cands then some (fzTriple env p.1 p.2) else none) :
    reqsNeedingSemantic cands reqs am =
      reqs.filter (fun r => ! anyFuzzy env cands r) := by
  unfold reqsNeedingSemantic
  refine lfilter_congr _ _ _ ?_
  intro req hreq
  have hany : cands.any (fun cand => amMatched am req cand)
      = anyFuzzy env cands req := by
    unfold anyFuzzy
    refine lany_congr _ _ _ ?_
    intro cand hcand
    unfold amMatched
    rw [ham (req, cand), if_pos ⟨hreq, hcand⟩]
    exact fzTriple_fst env req cand
  simp [hany]

/-- Membership of a (key, value) pair in the shape invariant is stable
under one insertion of an admissible entry. -/
theorem cacheShape_ainsert (env : SkillEnv) (reqs cands : List String)
    (cache : SCache) (k : String × String) (v : CacheVal)
    (hs : cacheShape env reqs cands cache)
    (hv : match v with
      | CacheVal.tup _ _ _ => k.1 ∈ cands.map pyLower
      | CacheVal.flo _ => k.1 ∈ reqs ∧ k.2 ∈ resumeSkillKeys env) :
    cacheShape env reqs cands (ainsert cache k v) := by
  intro a b w hw
  rw [alookup_ainsert] at hw
  by_cases he : k = (a, b)
  · rw [if_pos he] at hw
    have hwv : w = v := (Option.some.inj hw).symm
    subst hwv
    subst he
    exact hv
  · rw [if_neg he] at hw
    exact hs a b w hw

/-- The flo-insert fold of the semantic batch preserves the shape
invariant. -/
theorem cacheShape_foldl_flo (env : SkillEnv) (reqs cands : List String)
    (xs : List ((String × String) × CacheVal)) (cache : SCache)
    (hs : cacheShape env reqs cands cache)
    (hxs : ∀ p ∈ xs, (match p.2 with
      | CacheVal.tup _ _ _ => p.1.1 ∈ cands.map pyLower
      | CacheVal.flo _ => p.1.1 ∈ reqs ∧ p.1.2 ∈ resumeSkillKeys env : Prop)) :
    cacheShape env reqs cands
      (xs.foldl (fun c pv => ainsert c pv.1 pv.2) cache) := by
  induction xs generalizing cache with
  | nil => exact hs
  | cons hd tl ih =>
    simp only [List.foldl_cons]
    exact ih (ainsert cache hd.1 hd.2)
      (cacheShape_ainsert env reqs cands cache hd.1 hd.2 hs
        (hxs hd (List.mem_cons_self _ _)))
      (fun p hp => hxs p (List.mem_cons_of_mem _ hp))

/-- A fuzzy-pass cache (lower-cased tuple entries only) satisfies the
mixed shape invariant. -/
theorem cacheShape_of_fuzzy (env : SkillEnv) (reqs cands : List String)
    (cache : SCache) (hs : fuzzValShape env cache)
    (hdom : ∀ k : String × String, (alookup cache k).isSome →
      ∃ r ∈ reqs, ∃ c ∈ cands, k = (pyLower c, pyLower r)) :
    cacheShape env reqs cands cache := by
  intro a b v hv
  have hval := hs a b v hv
  obtain ⟨r, _, c, hc, he⟩ := hdom (a, b) (by simp [hv])
  injection he with he1 he2
  subst hval
  unfold mkFuzzVal
  exact List.mem_map.mpr ⟨c, hc, he1.symm⟩

/-- One semantic iteration: the `all_matches` entry becomes the semantic
triple, and the cache only gains lower-cased tuple entries. -/
theorem semCell_spec (env : SkillEnv) (reqs cands : List String)
    (sims : List ((String × String) × CacheVal)) (am : AllMatches)
    (cache : SCache) (req cand : String)
    (hsim : alookup sims (req, cand) = some (CacheVal.flo (env.sem req cand)))
    (ht : alookup am (req, cand) = some (fzTriple env req cand) ∨
          alookup am (req, cand) = some (sTriple env req cand))
    (_hfz : ¬ env.fuzz (pyLower cand) (pyLower req) ≥ fuzzyThreshold)
    (hs : cacheShape env reqs cands cache) (hcand : cand ∈ cands) :
    ∃ cache', semCell env sims (am, cache) req cand =
        some (ainsert am (req, cand) (sTriple env req cand), cache')
      ∧ cacheShape env reqs cands cache' := by
  have hlow : (pyLower cand, pyLower req).1 ∈ cands.map pyLower :=
    List.mem_map.mpr ⟨cand, hcand, rfl⟩
  by_cases hth : env.sem req cand ≥ embeddingThreshold
  · refine ⟨ainsert cache (pyLower cand, pyLower req)
      (CacheVal.tup true "semantic" (env.sem req cand * 100)), ?_, ?_⟩
    · simp [semCell, hsim, hth, sTriple]
    · exact cacheShape_ainsert env reqs cands cache _ _ hs hlow
  · rcases ht with ht | ht
    · by_cases hgt : env.sem req cand * 100 > (fzTriple env req cand).2.2
      · refine ⟨ainsert cache (pyLower cand, pyLower req)
          (CacheVal.tup false "none" (env.sem req cand * 100)), ?_, ?_⟩
        · simp [semCell, hsim, hth, ht, hgt, sTriple]
        · exact cacheShape_ainsert env reqs cands cache _ _ hs hlow
      · refine ⟨cache, ?_, hs⟩
        have hval : sTriple env req cand = fzTriple env req cand := by
          simp [sTriple, hth, hgt]
        rw [hval, ainsert_self_eq am (req, cand) _ ht]
        simp [semCell, hsim, hth, ht, hgt]
    · have hgt : ¬ env.sem req cand * 100 > (sTriple env req cand).2.2 := by
        unfold sTriple
        simp only [hth, if_false]
        by_cases hg : env.sem req cand * 100 > (fzTriple env req cand).2.2
        · simp [hg]
        · simp [hg]
      refine ⟨cache, ?_, hs⟩
      rw [ainsert_self_eq am (req, cand) _ ht]
      simp [semCell, hsim, hth, ht, hgt]

/-- The inner semantic loop over the candidate list. -/
theorem semRow_spec (env : SkillEnv) (reqs cands : List String)
    (sims : List ((String × String) × CacheVal)) (req : String)
    (cands0 : List String) :
    ∀ (am : AllMatches) (cache : SCache),
    (∀ c ∈ cands0, alookup sims (req, c) = some (CacheVal.flo (env.sem req c))) →
    (∀ c ∈ cands0, alookup am (req, c) = some (fzTriple env req c) ∨
                   alookup am (req, c) = some (sTriple env req c)) →
    (∀ c ∈ cands0, ¬ env.fuzz (pyLower c) (pyLower req) ≥ fuzzyThreshold) →
    cacheShape env reqs cands cache →
    (∀ c ∈ cands0, c ∈ cands) →
    ∃ am' cache', semRow env sims req cands0 (am, cache) = some (am', cache')
      ∧ (∀ p : String × String, alookup am' p =
          if p.1 = req ∧ p.2 ∈ cands0 then some (sTriple env req p.2)
          else alookup am p)
      ∧ cacheShape env reqs cands cache'
      ∧ ((am.map Prod.fst).Nodup → (am'.map Prod.fst).Nodup) := by
  induction cands0 with
  | nil =>
    intro am cache _ _ _ hs _
    refine ⟨am, cache, rfl, ?_, hs, fun h => h⟩
    intro p
    simp
  | cons cand rest ih =>
    intro am cache hsims hts hfzs hs hsub
    obtain ⟨cache₁, hcell, hs₁⟩ := semCell_spec env reqs cands sims am cache req cand
      (hsims cand (List.mem_cons_self _ _))
      (hts cand (List.mem_cons_self _ _))
      (hfzs cand (List.mem_cons_self _ _)) hs
      (hsub cand (List.mem_cons_self _ _))
    obtain ⟨am', cache', hrow, ham, hs', hnd⟩ :=
      ih (ainsert am (req, cand) (sTriple env req cand)) cache₁
        (fun c hc => hsims c (List.mem_cons_of_mem _ hc))
        (fun c hc => by
          rw [alookup_ainsert]
          by_cases he : (req, cand) = (req, c)
          · rw [if_pos he]
            injection he with _ he2
            right
            rw [he2]
          · rw [if_neg he]
            exact hts c (List.mem_cons_of_mem _ hc))
        (fun c hc => hfzs c (List.mem_cons_of_mem _ hc)) hs₁
        (fun c hc => hsub c (List.mem_cons_of_mem _ hc))
    refine ⟨am', cache', ?_, ?_, hs', ?_⟩
    · simp only [semRow, hcell, hrow]
    · intro p
      rw [ham p, alookup_ainsert]
      by_cases h1 : p.1 = req ∧ p.2 ∈ rest
      · rw [if_pos h1, if_pos ⟨h1.1, List.mem_cons_of_mem _ h1.2⟩]
      · rw [if_neg h1]
        by_cases h2 : (req, cand) = p
        · have hp1 : p.1 = req := (congrArg Prod.fst h2).symm
          have hp2 : p.2 = cand := (congrArg Prod.snd h2).symm
          rw [if_pos h2, if_pos ⟨hp1, by rw [hp2]; exact List.mem_cons_self _ _⟩, hp2]
        · rw [if_neg h2, if_neg ?_]
          intro hcon
          rcases List.mem_cons.mp hcon.2 with h' | h'
          · exact h2 (by rw [← hcon.1, ← h'])
          · exact h1 ⟨hcon.1, h'⟩
    · intro h
      exact hnd (ainsert_keys_nodup _ _ _ h)

/-- The outer semantic loop over the semantic-needing requirements. -/
theorem semPass_spec (env : SkillEnv) (reqs cands : List String)
    (sims : List ((String × String) × CacheVal)) (reqsSem0 : List String) :
    ∀ (am : AllMatches) (cache : SCache),
    (∀ r ∈ reqsSem0, ∀ c ∈ cands, alookup sims (r, c) =
      some (CacheVal.flo (env.sem r c))) →
    (∀ r ∈ reqsSem0, ∀ c ∈ cands, alookup am (r, c) = some (fzTriple env r c) ∨
                   alookup am (r, c) = some (sTriple env r c)) →
    (∀ r ∈ reqsSem0, ∀ c ∈ cands, ¬ env.fuzz (pyLower c) (pyLower r) ≥ fuzzyThreshold) →
    cacheShape env reqs cands cache →
    ∃ am' cache', semPass env sims cands reqsSem0 (am, cache) = some (am', cache')
      ∧ (∀ p : String × String, alookup am' p =
          if p.1 ∈ reqsSem0 ∧ p.2 ∈ cands then some (sTriple env p.1 p.2)
          else alookup am p)
      ∧ cacheShape env reqs cands cache'
      ∧ ((am.map Prod.fst).Nodup → (am'.map Prod.fst).Nodup) := by
  induction reqsSem0 with
  | nil =>
    intro am cache _ _ _ hs
    refine ⟨am, cache, rfl, ?_, hs, fun h => h⟩
    intro p
    simp
  | cons req rest ih =>
    intro am cache hsims hts hfzs hs
    obtain ⟨am₁, cache₁, hrow, ham₁, hs₁, hnd₁⟩ :=
      semRow_spec env reqs cands sims req cands am cache
        (hsims req (List.mem_cons_self _ _))
        (hts req (List.mem_cons_self _ _))
        (hfzs req (List.mem_cons_self _ _)) hs (fun c hc => hc)
    obtain ⟨am', cache', hpass, ham', hs', hnd'⟩ :=
      ih am₁ cache₁
        (fun r hr => hsims r (List.mem_cons_of_mem _ hr))
        (fun r hr c hc => by
          rw [ham₁ (r, c)]
          by_cases he : r = req ∧ c ∈ cands
          · rw [if_pos he]
            right
            rw [he.1]
          · rw [if_neg he]
            exact hts r (List.mem_cons_of_mem _ hr) c hc)
        (fun r hr => hfzs r (List.mem_cons_of_mem _ hr)) hs₁
    refine ⟨am', cache', ?_, ?_, hs', ?_⟩
    · simp only [semPass, hrow, hpass]
    · intro p
      rw [ham' p, ham₁ p]
      by_cases h1 : p.1 ∈ rest ∧ p.2 ∈ cands
      · rw [if_pos h1, if_pos ⟨List.mem_cons_of_mem _ h1.1, h1.2⟩]
      · rw [if_neg h1]
        by_cases h2 : p.1 = req ∧ p.2 ∈ cands
        · rw [if_pos h2, if_pos ⟨by rw [h2.1]; exact List.mem_cons_self _ _, h2.2⟩, h2.1]
        · rw [if_neg h2, if_neg ?_]
          intro hcon
          rcases List.mem_cons.mp hcon.1 with h' | h'
          · exact h2 ⟨h', hcon.2⟩
          · exact h1 ⟨h', hcon.2⟩
    · intro h
      exact hnd' (hnd₁ h)

/-- The best-score probe of the missing-skill branch never unpacks a
float: the shape invariant and the collision freedom keep every
lower-cased probe key away from the float entries. -/
theorem missingProbe_some (env : SkillEnv) (reqs cands : List String)
    (cache : SCache) (Hc : noLowerCollision reqs cands)
    (hs : cacheShape env reqs cands cache)
    (hrk : ∀ b ∈ resumeSkillKeys env, b ∈ cands) (req : String) :
    ∀ cands0, (∀ c ∈ cands0, c ∈ cands) →
      missingProbe cache req cands0 = some () := by
  intro cands0
  induction cands0 with
  | nil => intro _; rfl
  | cons cand rest ih =>
    intro hsub
    have hcand := hsub cand (List.mem_cons_self _ _)
    have h1 : ∀ v, alookup cache (pyLower cand, pyLower req) = some v →
        ∃ m meth sc, v = CacheVal.tup m meth sc := by
      intro v hv
      cases v with
      | tup m meth sc => exact ⟨m, meth, sc, rfl⟩
      | flo x =>
        exfalso
        obtain ⟨ha, _⟩ := hs _ _ _ hv
        exact Hc (pyLower cand) (List.mem_append_left _ ha) cand hcand rfl
    have h2 : ∀ v, alookup cache (pyLower req, pyLower cand) = some v →
        ∃ m meth sc, v = CacheVal.tup m meth sc := by
      intro v hv
      cases v with
      | tup m meth sc => exact ⟨m, meth, sc, rfl⟩
      | flo x =>
        exfalso
        obtain ⟨_, hb⟩ := hs _ _ _ hv
        exact Hc (pyLower cand) (List.mem_append_right _ (hrk _ hb)) cand hcand rfl
    have hgs : getFromCacheSymmetric CacheVal.truthy Prod.swap cache
          (pyLower cand, pyLower req) = none ∨
        ∃ m meth sc, getFromCacheSymmetric CacheVal.truthy Prod.swap cache
          (pyLower cand, pyLower req) = some (CacheVal.tup m meth sc) := by
      rcases hv1 : alookup cache (pyLower cand, pyLower req) with _ | v1
      · rcases hv2 : alookup cache (pyLower req, pyLower cand) with _ | v2
        · left
          simp [getFromCacheSymmetric, Prod.swap, hv1, hv2]
        · obtain ⟨m, meth, sc, he⟩ := h2 v2 hv2
          subst he
          exact Or.inr ⟨m, meth, sc,
            by simp [getFromCacheSymmetric, Prod.swap, hv1, hv2]⟩
      · obtain ⟨m, meth, sc, he⟩ := h1 v1 hv1
        subst he
        exact Or.inr ⟨m, meth, sc,
          by simp [getFromCacheSymmetric, Prod.swap, hv1, CacheVal.truthy]⟩
    rcases hgs with hgs | ⟨m, meth, sc, hgs⟩
    · simp only [missingProbe, hgs]
      exact ih (fun c hc => hsub c (List.mem_cons_of_mem _ hc))
    · simp only [missingProbe, hgs]
      exact ih (fun c hc => hsub c (List.mem_cons_of_mem _ hc))

/-- Some candidate carries a matched final triple iff the requirement
satisfies `matchedPred`. -/
theorem finalTriple_fst_any (env : SkillEnv) (cands : List String) (req : String) :
    cands.any (fun c => (finalTriple env cands req c).1) = matchedPred env cands req := by
  by_cases hf : anyFuzzy env cands req = true
  · have h1 : cands.any (fun c => (finalTriple env cands req c).1)
        = cands.any (fun c =>
            decide (env.fuzz (pyLower c) (pyLower req) ≥ fuzzyThreshold)) := by
      refine lany_congr _ _ _ ?_
      intro c _
      simp only [finalTriple]
      rw [if_pos hf]
      exact fzTriple_fst env req c
    rw [h1]
    show anyFuzzy env cands req = matchedPred env cands req
    unfold matchedPred
    rw [hf]
    simp
  · have hfalse : anyFuzzy env cands req = false := by simpa using hf
    have hall : ∀ c ∈ cands,
        ¬ env.fuzz (pyLower c) (pyLower req) ≥ fuzzyThreshold := by
      have h0 := hfalse
      simp only [anyFuzzy, List.any_eq_false, decide_eq_true_eq] at h0
      exact h0
    have h1 : cands.any (fun c => (finalTriple env cands req c).1)
        = cands.any (fun c => decide (env.sem req c ≥ embeddingThreshold)) := by
      refine lany_congr _ _ _ ?_
      intro c hc
      simp only [finalTriple]
      rw [if_neg hf]
      exact sTriple_fst env req c (hall c hc)
    rw [h1]
    show anySem env cands req = matchedPred env cands req
    unfold matchedPred
    rw [hfalse]
    simp

/-- `max(req_matches, ...)` exists iff the requirement is matched, on an
`all_matches` dict with nodup keys holding exactly the final triples. -/
theorem bestMatchFor_isSome (env : SkillEnv) (reqs cands : List String)
    (am : AllMatches) (req : String) (hreq : req ∈ reqs)
    (ham : ∀ p : String × String, alookup am p =
      if p.1 ∈ reqs ∧ p.2 ∈ cands
      then some (finalTriple env cands p.1 p.2) else none)
    (hnd : (am.map Prod.fst).Nodup) :
    (bestMatchFor am req).isSome = matchedPred env cands req := by
  rw [← finalTriple_fst_any env cands req]
  cases hrm : am.filterMap (fun e =>
      if e.1.1 = req ∧ e.2.1 then some (e.1.2, e.2.2.1, e.2.2.2) else none) with
  | nil =>
    have hnone : ∀ c ∈ cands, ¬ ((finalTriple env cands req c).1 = true) := by
      intro c hc hflag
      have hmem : ((req, c), finalTriple env cands req c) ∈ am :=
        alookup_some_mem am (req, c) _
          (by rw [ham (req, c), if_pos ⟨hreq, hc⟩])
      have hnil := List.filterMap_eq_nil_iff.mp hrm _ hmem
      simp [hflag] at hnil
    simp only [bestMatchFor, hrm, Option.isSome_none]
    symm
    rw [List.any_eq_false]
    exact hnone
  | cons h0 t0 =>
    have h0mem : h0 ∈ am.filterMap (fun e =>
        if e.1.1 = req ∧ e.2.1 then some (e.1.2, e.2.2.1, e.2.2.2) else none) := by
      rw [hrm]
      exact List.mem_cons_self _ _
    obtain ⟨e, he, hfe⟩ := List.mem_filterMap.mp h0mem
    by_cases hcond : e.1.1 = req ∧ e.2.1
    · have hl : alookup am e.1 = some e.2 := mem_alookup_of_nodup am e.1 e.2 hnd he
      rw [ham e.1] at hl
      by_cases hin : e.1.1 ∈ reqs ∧ e.1.2 ∈ cands
      · rw [if_pos hin] at hl
        simp only [bestMatchFor, hrm, Option.isSome_some]
        symm
        rw [List.any_eq_true]
        refine ⟨e.1.2, hin.2, ?_⟩
        have hft : (finalTriple env cands e.1.1 e.1.2).1 = true := by
          rw [congrArg Prod.fst (Option.some.inj hl)]
          exact hcond.2
        rw [← hcond.1]
        exact hft
      · rw [if_neg hin] at hl
        exact Option.noConfusion hl
    · rw [if_neg hcond] at hfe
      exact Option.noConfusion hfe

/-- The counting loop of `evaluate_skills_match`: the matched count is
exactly the number of requirements satisfying `matchedPred`. -/
theorem processReqs_full (env : SkillEnv) (reqs cands : List String)
    (cache : SCache) (am : AllMatches)
    (Hc : noLowerCollision reqs cands)
    (hs : cacheShape env reqs cands cache)
    (hrk : ∀ b ∈ resumeSkillKeys env, b ∈ cands)
    (ham : ∀ p : String × String, alookup am p =
      if p.1 ∈ reqs ∧ p.2 ∈ cands
      then some (finalTriple env cands p.1 p.2) else none)
    (hnd : (am.map Prod.fst).Nodup) :
    ∀ reqs0, (∀ r ∈ reqs0, r ∈ reqs) →
    ∃ pairs miss, processReqs cache cands am reqs0 =
      some (List.countP (fun r => matchedPred env cands r) reqs0, pairs, miss) := by
  intro reqs0
  induction reqs0 with
  | nil =>
    intro _
    exact ⟨[], [], rfl⟩
  | cons r rest ih =>
    intro hsub
    obtain ⟨pairs, miss, hrec⟩ := ih (fun x hx => hsub x (List.mem_cons_of_mem _ hx))
    have hb := bestMatchFor_isSome env reqs cands am r
      (hsub r (List.mem_cons_self _ _)) ham hnd
    by_cases hm : matchedPred env cands r = true
    · rw [hm] at hb
      obtain ⟨v, hv⟩ := Option.isSome_iff_exists.mp hb
      obtain ⟨cand, meth, score⟩ := v
      refine ⟨(r ++ " ~ " ++ cand ++ " (" ++ meth ++ ": " ++ toString score ++ "%)")
        :: pairs, miss, ?_⟩
      rw [List.countP_cons_of_pos _ _ hm]
      simp only [processReqs, hv, hrec, Option.map]
    · have hm' : matchedPred env cands r = false := by simpa using hm
      rw [hm'] at hb
      have hbn : bestMatchFor am r = none := by
        rcases h : bestMatchFor am r with _ | v
        · rfl
        · rw [h] at hb
          exact Bool.noConfusion hb
      have hprobe : missingProbe cache r cands = some () :=
        missingProbe_some env reqs cands cache Hc hs hrk r cands (fun c hc => hc)
      refine ⟨pairs, r :: miss, ?_⟩
      rw [List.countP_cons_of_neg _ _ (by simp [hm'])]
      simp only [processReqs, hbn, hprobe, hrec, Option.map]

theorem alookup_map_self2 {V : Type} (l : List (String × String))
    (g : String × String → V) (q : String × String) (h : q ∈ l) :
    alookup (l.map (fun p => (Prod.mk p.1 p.2, g p))) q = some (g q) := by
  have he : l.map (fun p => (Prod.mk p.1 p.2, g p))
      = l.map (fun p => (p, g p)) := rfl
  rw [he, alookup_map_self l g q, if_pos h]

/-- `_batch_match_skills` starting from an empty cache: it succeeds, and
`all_matches` holds exactly the final triple for every
(requirement, candidate) pair. -/
theorem batchMatchSkills_spec (env : SkillEnv) (reqs : List String)
    (Hf : ∀ a b, env.fuzz a b = env.fuzz b a)
    (Hc : noLowerCollision reqs (candidateSkills env)) :
    ∃ am cache',
      batchMatchSkills env (candidateSkills env) reqs [] = some (am, cache')
      ∧ (∀ p : String × String, alookup am p =
          if p.1 ∈ reqs ∧ p.2 ∈ candidateSkills env
          then some (finalTriple env (candidateSkills env) p.1 p.2) else none)
      ∧ (am.map Prod.fst).Nodup
      ∧ cacheShape env reqs (candidateSkills env) cache' := by
  have hshape0 : fuzzValShape env [] := fun a b v h => Option.noConfusion h
  obtain ⟨am₁, cache₁, hpass, ham₁, hs₁, hdom₁, hnd₁⟩ :=
    fuzzyPass_spec env (candidateSkills env) reqs Hf [] [] hshape0
  have ham₁' : ∀ p : String × String, alookup am₁ p =
      if p.1 ∈ reqs ∧ p.2 ∈ candidateSkills env
      then some (fzTriple env p.1 p.2) else none := by
    intro p
    rw [ham₁ p]
    by_cases h : p.1 ∈ reqs ∧ p.2 ∈ candidateSkills env
    · rw [if_pos h, if_pos h]
    · rw [if_neg h, if_neg h]
      rfl
  have hdom₁' : ∀ k : String × String, (alookup cache₁ k).isSome →
      ∃ r ∈ reqs, ∃ c ∈ candidateSkills env, k = (pyLower c, pyLower r) := by
    intro k hk
    rcases hdom₁ k hk with h | h
    · exact Bool.noConfusion h
    · exact h
  have hnd₁' : (am₁.map Prod.fst).Nodup := hnd₁ (by simp)
  have hsem := reqsNeedingSemantic_eq env (candidateSkills env) reqs am₁ ham₁'
  have hshape₁ : cacheShape env reqs (candidateSkills env) cache₁ :=
    cacheShape_of_fuzzy env reqs (candidateSkills env) cache₁ hs₁ hdom₁'
  by_cases hemp : (reqsNeedingSemantic (candidateSkills env) reqs am₁).isEmpty = true
  · refine ⟨am₁, cache₁, ?_, ?_, hnd₁', hshape₁⟩
    · simp only [batchMatchSkills, hpass]
      rw [if_pos hemp]
    · intro p
      rw [ham₁' p]
      by_cases hp : p.1 ∈ reqs ∧ p.2 ∈ candidateSkills env
      · rw [if_pos hp, if_pos hp]
        have hnil : reqs.filter (fun r => ! anyFuzzy env (candidateSkills env) r)
            = [] := by
          rw [← hsem]
          exact List.isEmpty_iff.mp hemp
        have hanyf : anyFuzzy env (candidateSkills env) p.1 = true := by
          have := List.filter_eq_nil_iff.mp hnil p.1 hp.1
          simpa using this
        unfold finalTriple
        rw [if_pos hanyf]
      · rw [if_neg hp, if_neg hp]
  · have hsubrk : ∀ b ∈ resumeSkillKeys env, b ∈ candidateSkills env :=
      fun b hb => (mem_dedupList _ b).mp hb
    have hreqsem_sub : ∀ r ∈ reqsNeedingSemantic (candidateSkills env) reqs am₁,
        r ∈ reqs := by
      intro r hr
      rw [hsem] at hr
      exact (List.mem_filter.mp hr).1
    have hreqsem_nf : ∀ r ∈ reqsNeedingSemantic (candidateSkills env) reqs am₁,
        anyFuzzy env (candidateSkills env) r = false := by
      intro r hr
      rw [hsem] at hr
      have := (List.mem_filter.mp hr).2
      simpa using this
    have hmiss : ∀ p ∈ (((reqsNeedingSemantic (candidateSkills env) reqs am₁).map
        (fun a => (resumeSkillKeys env).map (fun b => (a, b)))).flatten),
        getFromCacheSymmetric CacheVal.truthy Prod.swap cache₁
          (Prod.mk p.1 p.2) = none := by
      intro p hp
      obtain ⟨hp1, hp2⟩ := (mem_pairs_flatten _ _ p).mp hp
      exact getSym_miss_after_fuzzy env reqs (candidateSkills env) cache₁ Hc hdom₁'
        p.1 p.2 (hreqsem_sub _ hp1) (hsubrk _ hp2)
    have hcp := calcPairwiseSims_all_miss Prod.mk Prod.swap CacheVal.flo
      CacheVal.truthy env.sem (reqsNeedingSemantic (candidateSkills env) reqs am₁)
      (resumeSkillKeys env) cache₁ hmiss
    have hsims : ∀ r ∈ reqsNeedingSemantic (candidateSkills env) reqs am₁,
        ∀ c ∈ candidateSkills env,
        alookup ((((reqsNeedingSemantic (candidateSkills env) reqs am₁).map
            (fun a => (resumeSkillKeys env).map (fun b => (a, b)))).flatten).map
          (fun p => (Prod.mk p.1 p.2, CacheVal.flo (env.sem p.1 p.2)))) (r, c)
          = some (CacheVal.flo (env.sem r c)) := by
      intro r hr c hc
      exact alookup_map_self2 _ (fun p => CacheVal.flo (env.sem p.1 p.2)) (r, c)
        ((mem_pairs_flatten _ _ (r, c)).mpr ⟨hr, (mem_dedupList _ c).mpr hc⟩)
    have hts : ∀ r ∈ reqsNeedingSemantic (candidateSkills env) reqs am₁,
        ∀ c ∈ candidateSkills env,
        alookup am₁ (r, c) = some (fzTriple env r c) ∨
        alookup am₁ (r, c) = some (sTriple env r c) := by
      intro r hr c hc
      exact Or.inl (by rw [ham₁' (r, c), if_pos ⟨hreqsem_sub r hr, hc⟩])
    have hfzs : ∀ r ∈ reqsNeedingSemantic (candidateSkills env) reqs am₁,
        ∀ c ∈ candidateSkills env,
        ¬ env.fuzz (pyLower c) (pyLower r) ≥ fuzzyThreshold := by
      intro r hr
      have h0 := hreqsem_nf r hr
      simp only [anyFuzzy, List.any_eq_false, decide_eq_true_eq] at h0
      exact h0
    have hshape₂ : cacheShape env reqs (candidateSkills env)
        (((((reqsNeedingSemantic (candidateSkills env) reqs am₁).map
            (fun a => (resumeSkillKeys env).map (fun b => (a, b)))).flatten).map
          (fun p => (Prod.mk p.1 p.2, CacheVal.flo (env.sem p.1 p.2)))).foldl
            (fun c pv => ainsert c pv.1 pv.2) cache₁) := by
      refine cacheShape_foldl_flo env reqs (candidateSkills env) _ cache₁ hshape₁ ?_
      intro p' hp'
      obtain ⟨p, hpP, he⟩ := List.mem_map.mp hp'
      obtain ⟨h1, h2⟩ := (mem_pairs_flatten _ _ p).mp hpP
      subst he
      exact ⟨hreqsem_sub _ h1, h2⟩
    obtain ⟨am', cache', hpass2, ham', hs', hnd'⟩ :=
      semPass_spec env reqs (candidateSkills env) _
        (reqsNeedingSemantic (candidateSkills env) reqs am₁) am₁ _
        hsims hts hfzs hshape₂
    refine ⟨am', cache', ?_, ?_, hnd' hnd₁', hs'⟩
    · simp only [batchMatchSkills, hpass]
      rw [if_neg hemp]
      simp only [hcp]
      exact hpass2
    · intro p
      rw [ham' p, ham₁' p]
      by_cases hp : p.1 ∈ reqs ∧ p.2 ∈ candidateSkills env
      · by_cases hf : anyFuzzy env (candidateSkills env) p.1 = true
        · have hnot : ¬ (p.1 ∈ reqsNeedingSemantic (candidateSkills env) reqs am₁
              ∧ p.2 ∈ candidateSkills env) := by
            intro hcon
            have := hreqsem_nf p.1 hcon.1
            rw [hf] at this
            exact Bool.noConfusion this
          rw [if_neg hnot, if_pos hp, if_pos hp]
          unfold finalTriple
          rw [if_pos hf]
        · have hfalse : anyFuzzy env (candidateSkills env) p.1 = false := by
            simpa using hf
          have hin : p.1 ∈ reqsNeedingSemantic (candidateSkills env) reqs am₁ := by
            rw [hsem]
            exact List.mem_filter.mpr ⟨hp.1, by simp [hfalse]⟩
          rw [if_pos ⟨hin, hp.2⟩, if_pos hp]
          unfold finalTriple
          rw [if_neg hf]
      · have hnot2 : ¬ (p.1 ∈ reqsNeedingSemantic (candidateSkills env) reqs am₁
            ∧ p.2 ∈ candidateSkills env) := by
          intro hcon
          exact hp ⟨hreqsem_sub _ hcon.1, hcon.2⟩
        rw [if_neg hnot2, if_neg hp, if_neg hp]

/-- On the scored path (language check passed, non-empty required set, no
blacklisted requirement), `match_ratio` starting from an empty cache is
exactly the number of requirements matched per `matchedPred` over the
total. -/
theorem matchFrac_scored (env : SkillEnv) (js : JobSkills)
    (Hf : ∀ a b, env.fuzz a b = env.fuzz b a)
    (Hc : noLowerCollision (requiredSkillsOf js) (candidateSkills env))
    (hl : langMissingOf env js = none)
    (hreq : requiredSkillsOf js ≠ [])
    (hbl : (requiredSkillsOf js).find? (fun r =>
      env.skipRequiredSkill.any (fun s => pyLower r = pyLower s)) = none) :
    matchFrac env [] js = some
      ((List.countP (fun r => matchedPred env (candidateSkills env) r)
        (requiredSkillsOf js) : Rat) / ((requiredSkillsOf js).length : Rat)) := by
  obtain ⟨am, cache', hbatch, ham, hnd, hs⟩ :=
    batchMatchSkills_spec env (requiredSkillsOf js) Hf Hc
  obtain ⟨pairs, miss, hproc⟩ := processReqs_full env (requiredSkillsOf js)
    (candidateSkills env) cache' am Hc hs
    (fun b hb => (mem_dedupList _ b).mp hb) ham hnd
    (requiredSkillsOf js) (fun r h => h)
  simp [matchFrac, skillMatchOutcome, hl, hbl, hbatch, hproc, hreq]

/-- `match_ratio` from an empty cache either does not exist (early return
or crash) or equals the `matchedPred` count over the total. -/
theorem matchFrac_cases (env : SkillEnv) (js : JobSkills)
    (Hf : ∀ a b, env.fuzz a b = env.fuzz b a)
    (Hc : noLowerCollision (requiredSkillsOf js) (candidateSkills env)) :
    matchFrac env [] js = none ∨
    (requiredSkillsOf js ≠ [] ∧ matchFrac env [] js = some
      ((List.countP (fun r => matchedPred env (candidateSkills env) r)
        (requiredSkillsOf js) : Rat) / ((requiredSkillsOf js).length : Rat))) := by
  rcases hl : langMissingOf env js with _ | missing
  · by_cases hreq : requiredSkillsOf js = []
    · left
      simp [matchFrac, skillMatchOutcome, hl, hreq]
    · rcases hbl : (requiredSkillsOf js).find? (fun r =>
          env.skipRequiredSkill.any (fun s => pyLower r = pyLower s)) with _ | r
      · right
        exact ⟨hreq, matchFrac_scored env js Hf Hc hl hreq hbl⟩
      · left
        simp [matchFrac, skillMatchOutcome, hl, hreq, hbl]
  · left
    simp [matchFrac, skillMatchOutcome, hl]

theorem alookup_append {K V : Type} [DecidableEq K]
    (l1 l2 : List (K × V)) (k : K) :
    alookup (l1 ++ l2) k = match alookup l1 k with
      | some v => some v
      | none => alookup l2 k := by
  induction l1 with
  | nil => simp [alookup]
  | cons hd tl ih =>
    obtain ⟨k0, v0⟩ := hd
    by_cases h : k0 = k
    · subst h
      simp [alookup]
    · simp [alookup, h, ih]

theorem foldl_append_mem (cats : List String) (g g' : String → List String)
    (hsub : ∀ cat, ∀ x ∈ g cat, x ∈ g' cat) :
    ∀ acc acc', (∀ x ∈ acc, x ∈ acc') →
    ∀ x ∈ cats.foldl (fun a c => a ++ g c) acc,
      x ∈ cats.foldl (fun a c => a ++ g' c) acc' := by
  induction cats with
  | nil =>
    intro acc acc' hacc x hx
    exact hacc x hx
  | cons c rest ih =>
    intro acc acc' hacc x hx
    simp only [List.foldl_cons] at hx ⊢
    refine ih (acc ++ g c) (acc' ++ g' c) ?_ x hx
    intro y hy
    rcases List.mem_append.mp hy with h | h
    · exact List.mem_append_left _ (hacc y h)
    · exact List.mem_append_right _ (hsub c y h)

/-- Adding one skill to a category only grows the candidate-skill
list (as a set). -/
theorem mem_candidateSkills_add (env : SkillEnv) (cat s : String) (c : String)
    (h : c ∈ candidateSkills env) :
    c ∈ candidateSkills
      { env with resumeSkills := addResumeSkill env.resumeSkills cat s } := by
  unfold candidateSkills at h ⊢
  refine foldl_append_mem skillCategories
    (fun cat2 => (alookup env.resumeSkills cat2).getD [])
    (fun cat2 => (alookup (addResumeSkill env.resumeSkills cat s) cat2).getD [])
    ?_ [] [] (fun x hx => hx) c h
  intro cat2 x hx
  dsimp only at hx ⊢
  unfold addResumeSkill
  rcases h0 : alookup env.resumeSkills cat with _ | l
  · dsimp only
    rw [alookup_append]
    rcases h1 : alookup env.resumeSkills cat2 with _ | v
    · rw [h1] at hx
      simp at hx
    · rw [h1] at hx
      exact hx
  · dsimp only
    rw [alookup_ainsert]
    by_cases he : cat = cat2
    · rw [if_pos he]
      subst he
      rw [h0] at hx
      exact List.mem_append_left _ hx
    · rw [if_neg he]
      exact hx

theorem noLowerCollision_of_add (env : SkillEnv) (cat s : String)
    (reqs : List String)
    (Hc : noLowerCollision reqs (candidateSkills
      { env with resumeSkills := addResumeSkill env.resumeSkills cat s })) :
    noLowerCollision reqs (candidateSkills env) := by
  intro x hx c hc
  refine Hc x ?_ c (mem_candidateSkills_add env cat s c hc)
  rcases List.mem_append.mp hx with h | h
  · exact List.mem_append_left _ h
  · exact List.mem_append_right _ (mem_candidateSkills_add env cat s x h)

/-- `matchedPred` only gains requirements when a candidate skill is
added: the fuzzy and semantic scorers are untouched and both
disjuncts are existential over the candidate list. -/
theorem matchedPred_mono_add (env : SkillEnv) (cat s : String) (r : String)
    (h : matchedPred env (candidateSkills env) r = true) :
    matchedPred { env with resumeSkills := addResumeSkill env.resumeSkills cat s }
      (candidateSkills
        { env with resumeSkills := addResumeSkill env.resumeSkills cat s })
      r = true := by
  have h0 : anyFuzzy env (candidateSkills env) r = true ∨
      anySem env (candidateSkills env) r = true := by
    simpa [matchedPred] using h
  have hstep : anyFuzzy { env with resumeSkills := addResumeSkill env.resumeSkills cat s }
        (candidateSkills
          { env with resumeSkills := addResumeSkill env.resumeSkills cat s }) r = true ∨
      anySem { env with resumeSkills := addResumeSkill env.resumeSkills cat s }
        (candidateSkills
          { env with resumeSkills := addResumeSkill env.resumeSkills cat s }) r = true := by
    rcases h0 with h1 | h1
    · left
      unfold anyFuzzy at h1 ⊢
      obtain ⟨c, hc, hp⟩ := List.any_eq_true.mp h1
      exact List.any_eq_true.mpr ⟨c, mem_candidateSkills_add env cat s c hc, hp⟩
    · right
      unfold anySem at h1 ⊢
      obtain ⟨c, hc, hp⟩ := List.any_eq_true.mp h1
      exact List.any_eq_true.mpr ⟨c, mem_candidateSkills_add env cat s c hc, hp⟩
  simpa [matchedPred] using hstep

/-- **C7** (skill-match monotonicity): for a fixed job-skills dict,
adding one candidate skill to a category of the resume skills cannot
decrease the `match_ratio` computed by `evaluate_skills_match` from an
empty matcher cache, assuming a symmetric fuzzy scorer and no collision
between the lower-cased candidate keys and the raw requirement/candidate
keys that share the `match_cache` (absent which the shared cache makes
the matcher crash on a type confusion rather than return a ratio). -/
theorem C7_skill_match_monotonicity (env : SkillEnv) (js : JobSkills)
    (cat s : String) (q q2 : Rat)
    (Hf : ∀ a b, env.fuzz a b = env.fuzz b a)
    (Hc : noLowerCollision (requiredSkillsOf js)
      (candidateSkills
        { env with resumeSkills := addResumeSkill env.resumeSkills cat s }))
    (hq : matchFrac env [] js = some q)
    (hq2 : matchFrac
      { env with resumeSkills := addResumeSkill env.resumeSkills cat s }
      [] js = some q2) :
    q ≤ q2 := by
  have Hc0 : noLowerCollision (requiredSkillsOf js) (candidateSkills env) :=
    noLowerCollision_of_add env cat s _ Hc
  rcases matchFrac_cases env js Hf Hc0 with h | ⟨hne, heq⟩
  · rw [h] at hq
    exact Option.noConfusion hq
  rcases matchFrac_cases
      { env with resumeSkills := addResumeSkill env.resumeSkills cat s } js Hf Hc
    with h | ⟨_, heq2⟩
  · rw [h] at hq2
    exact Option.noConfusion hq2
  rw [heq] at hq
  rw [heq2] at hq2
  have hv1 := Option.some.inj hq
  have hv2 := Option.some.inj hq2
  subst hv1
  subst hv2
  have hlen : (0 : Rat) < ((requiredSkillsOf js).length : Rat) := by
    have hpos : 0 < (requiredSkillsOf js).length := List.length_pos.mpr hne
    exact_mod_cast hpos
  have hcount : List.countP (fun r => matchedPred env (candidateSkills env) r)
        (requiredSkillsOf js)
      ≤ List.countP (fun r => matchedPred
          { env with resumeSkills := addResumeSkill env.resumeSkills cat s }
          (candidateSkills
            { env with resumeSkills := addResumeSkill env.resumeSkills cat s }) r)
        (requiredSkillsOf js) :=
    lcountP_mono _ _ _ (fun r _ hr => matchedPred_mono_add env cat s r hr)
  have hcast : ((List.countP (fun r => matchedPred env (candidateSkills env) r)
        (requiredSkillsOf js) : Nat) : Rat)
      ≤ ((List.countP (fun r => matchedPred
          { env with resumeSkills := addResumeSkill env.resumeSkills cat s }
          (candidateSkills
            { env with resumeSkills := addResumeSkill env.resumeSkills cat s }) r)
        (requiredSkillsOf js) : Nat) : Rat) := by
    exact_mod_cast hcount
  rw [div_le_div_iff₀ hlen hlen]
  exact mul_le_mul_of_nonneg_right hcast hlen.le

/-- **C7 witness**: with constant fuzzy score 90 both requirements of
`jsTwoReqs` are matched before and after adding "Django" to the
frameworks category; the ratio 1 does not decrease. -/
theorem C7_skill_match_monotonicity_witness :
    matchFrac skillEnv0 [] jsTwoReqs = some 1 ∧
    matchFrac skillEnv1 [] jsTwoReqs = some 1 ∧ (1 : Rat) ≤ 1 := by
  have hcnt0 : List.countP
      (fun r => matchedPred skillEnv0 (candidateSkills skillEnv0) r)
      (requiredSkillsOf jsTwoReqs) = 2 := by decide
  have hcnt1 : List.countP
      (fun r => matchedPred skillEnv1 (candidateSkills skillEnv1) r)
      (requiredSkillsOf jsTwoReqs) = 2 := by decide
  have hlen2 : (requiredSkillsOf jsTwoReqs).length = 2 := by decide
  have h1 : matchFrac skillEnv0 [] jsTwoReqs = some 1 := by
    rw [matchFrac_scored skillEnv0 jsTwoReqs (fun a b => rfl)
      (by unfold noLowerCollision; decide) (by decide) (by decide) (by decide)]
    rw [hcnt0, hlen2]
    norm_num
  have h2 : matchFrac skillEnv1 [] jsTwoReqs = some 1 := by
    rw [matchFrac_scored skillEnv1 jsTwoReqs (fun a b => rfl)
      (by unfold noLowerCollision; decide) (by decide) (by decide) (by decide)]
    rw [hcnt1, hlen2]
    norm_num
  exact ⟨h1, h2, C7_skill_match_monotonicity skillEnv0 jsTwoReqs
    "frameworks" "Django" 1 1 (fun a b => rfl) (by unfold noLowerCollision; decide) h1 h2⟩

end VettaVista
